import Mathlib

/-!
Shallow embedding of the MATHLDBT v1 columnar codec
(`src/codec/mathldbt_v1.rs`, `src/batch.rs`, `src/batch_view.rs`,
`src/schema.rs`) and proofs about its specification claims.

Representation conventions:
* Machine integers are `Nat` holding the unsigned bit pattern
  (`i64` values are their two's-complement image in `[0, 2^64)`,
  `u32` offsets are in `[0, 2^32)`, bytes are in `[0, 256)`).
  Wrapping arithmetic is explicit `% 2^64`.
* Rust `Vec<u8>` / byte slices are `List Nat`.
* Fallible functions return `Except String` mirroring `Result<_, Error>`
  with the exact error message strings.
* `usize` arithmetic that can only fail on overflow (`checked_add`,
  `checked_mul` on in-range data) is modelled on unbounded `Nat`, where
  the overflow branch is unreachable; this is noted at each site.
-/

/-- Decidable equality of `Except` results, used to evaluate the codec
on concrete frames. -/
instance {ε α : Type} [DecidableEq ε] [DecidableEq α] :
    DecidableEq (Except ε α) := fun a b =>
  match a, b with
  | .error e1, .error e2 =>
    if h : e1 = e2 then isTrue (by rw [h]) else isFalse (by simp [h])
  | .error _, .ok _ => isFalse (by simp)
  | .ok _, .error _ => isFalse (by simp)
  | .ok v1, .ok v2 =>
    if h : v1 = v2 then isTrue (by rw [h]) else isFalse (by simp [h])

namespace Mathldbt

/-- 2^64, the wrap modulus for u64 / i64 bit patterns. -/
def U64MOD : Nat := 18446744073709551616

/-- 2^32, the wrap modulus for u32. -/
def U32MOD : Nat := 4294967296

/-- 2^63, the sign bit of an i64 bit pattern. -/
def I64SIGN : Nat := 9223372036854775808

/-- Little-endian byte image of `v` in `k` bytes (Rust `to_le_bytes`,
truncating like an `as` cast if `v` does not fit). -/
def toLe : Nat → Nat → List Nat
  | 0, _ => []
  | k + 1, v => (v % 256) :: toLe k (v / 256)

/-- Value of a little-endian byte list (Rust `from_le_bytes`).
Bytes are expected to be `< 256`. -/
def fromLe : List Nat → Nat
  | [] => 0
  | b :: rest => b + 256 * fromLe rest

/-- Value of a big-endian byte list (Rust `from_be_bytes`). -/
def fromBe (l : List Nat) : Nat := fromLe l.reverse

/-- Chunking loop for `chunkMap`, structurally recursive on a fuel
that is initialized to the list length (each step consumes at least
one element, so the fuel never runs out). -/
def chunkMapGo (f : List Nat → α) (k : Nat) : Nat → List Nat → List α
  | _, [] => []
  | 0, _ :: _ => []
  | fuel + 1, b :: rest => f ((b :: rest).take (k + 1)) :: chunkMapGo f k fuel (rest.drop k)

/-- Split a byte list into consecutive chunks of `k + 1` bytes and map
`f` over each chunk (used to decode fixed-width little/big-endian
payloads whose length is a checked multiple of the element size). -/
def chunkMap (f : List Nat → α) (k : Nat) (l : List Nat) : List α :=
  chunkMapGo f k l.length l

/-- Wrapping 64-bit subtraction on bit patterns (Rust `i64::wrapping_sub`). -/
def wsub64 (a b : Nat) : Nat := (a + (U64MOD - b % U64MOD)) % U64MOD

/-- Wrapping 64-bit addition on bit patterns (Rust `i64::wrapping_add`). -/
def wadd64 (a b : Nat) : Nat := (a + b) % U64MOD

/-- The 8 magic bytes `b"MATHLDBT"`. -/
def MAGIC : List Nat := [77, 65, 84, 72, 76, 68, 66, 84]

/-- Wire format version (`VERSION`). -/
def VERSION : Nat := 1

def ENC_PLAIN : Nat := 0
def ENC_PG_BE_FIXED : Nat := 1
def ENC_DICT_UTF8 : Nat := 2
def ENC_DELTA_VARINT_I64 : Nat := 3

/-- `ceil_div_8`: validity bitmap length for a row count.  The Rust
version errors on `usize` overflow of `n + 7`, which cannot occur on
`Nat`. -/
def ceilDiv8 (n : Nat) : Nat := (n + 7) / 8

/-- Column types (`ColumnarType`). -/
inductive ColumnarType where
  | bool
  | i16
  | i32
  | i64
  | f32
  | f64
  | uuid
  | timestampTzMicros
  | utf8
  | bytes
  | jsonbText
deriving DecidableEq, Repr

/-- `type_id`: stable numeric wire id of a column type. -/
def type_id : ColumnarType → Nat
  | .bool => 1
  | .i16 => 2
  | .i32 => 3
  | .i64 => 4
  | .f32 => 5
  | .f64 => 6
  | .uuid => 7
  | .timestampTzMicros => 8
  | .utf8 => 9
  | .bytes => 10
  | .jsonbText => 11

/-- `type_from_id`: decode a wire type id. -/
def type_from_id (id : Nat) : Except String ColumnarType :=
  match id with
  | 1 => .ok .bool
  | 2 => .ok .i16
  | 3 => .ok .i32
  | 4 => .ok .i64
  | 5 => .ok .f32
  | 6 => .ok .f64
  | 7 => .ok .uuid
  | 8 => .ok .timestampTzMicros
  | 9 => .ok .utf8
  | 10 => .ok .bytes
  | 11 => .ok .jsonbText
  | _ => .error ("unknown column type id: " ++ toString id)

/-- `ColumnarField`.  The optional name is carried as its UTF-8 byte
list (the Rust `String` invariant is that those bytes are valid UTF-8). -/
structure ColumnarField where
  name : Option (List Nat)
  ty : ColumnarType
deriving DecidableEq, Repr

/-- `ColumnarSchema`: ordered field list. -/
structure ColumnarSchema where
  fields : List ColumnarField
deriving DecidableEq, Repr

/-- `ColumnData`: owned column payload variants.  The `ValidityBitmap`
newtype around `Vec<u8>` is inlined as the raw byte list; fixed-width
values are unsigned bit patterns; `uuid` values are 16-byte lists. -/
inductive ColumnData where
  | fixedBool (validity : List Nat) (values : List Nat)
  | fixedI16 (validity : List Nat) (values : List Nat)
  | fixedI32 (validity : List Nat) (values : List Nat)
  | fixedI64 (validity : List Nat) (values : List Nat)
  | fixedF32Bits (validity : List Nat) (values : List Nat)
  | fixedF64Bits (validity : List Nat) (values : List Nat)
  | fixedUuid (validity : List Nat) (values : List (List Nat))
  | fixedTimestampMicros (validity : List Nat) (values : List Nat)
  | var (ty : ColumnarType) (validity : List Nat) (offsets : List Nat)
      (data : List Nat)
deriving DecidableEq, Repr

/-- `ColumnData::ty`. -/
def ColumnData.ty : ColumnData → ColumnarType
  | .fixedBool .. => .bool
  | .fixedI16 .. => .i16
  | .fixedI32 .. => .i32
  | .fixedI64 .. => .i64
  | .fixedF32Bits .. => .f32
  | .fixedF64Bits .. => .f64
  | .fixedUuid .. => .uuid
  | .fixedTimestampMicros .. => .timestampTzMicros
  | .var ty .. => ty

/-- Validity bytes of a column (the per-variant `validity` projection
used by both encoders). -/
def ColumnData.validityBytes : ColumnData → List Nat
  | .fixedBool v _ => v
  | .fixedI16 v _ => v
  | .fixedI32 v _ => v
  | .fixedI64 v _ => v
  | .fixedF32Bits v _ => v
  | .fixedF64Bits v _ => v
  | .fixedUuid v _ => v
  | .fixedTimestampMicros v _ => v
  | .var _ v _ _ => v

/-- Offsets monotonicity scan: Rust
`let mut prev = 0; for o { if o < prev { err } prev = o }`. -/
def offsetsNonDecreasing : List Nat → Bool
  | l => go 0 l
where
  go (prev : Nat) : List Nat → Bool
    | [] => true
    | o :: rest => if o < prev then false else go o rest

/-- `ColumnData::validate_for_row_count`, check for check in source
order with the exact error strings. -/
def ColumnData.validate_for_row_count (c : ColumnData) (ty : ColumnarType)
    (rowCount : Nat) : Except String Unit :=
  if c.ty ≠ ty then .error "column type mismatch"
  else
    let expectedValidity := ceilDiv8 rowCount
    match c with
    | .fixedBool validity values =>
      if validity.length ≠ expectedValidity then .error "validity length mismatch"
      else if values.length ≠ rowCount then .error "values length mismatch"
      else .ok ()
    | .fixedI16 validity values =>
      if validity.length ≠ expectedValidity then .error "validity length mismatch"
      else if values.length ≠ rowCount then .error "values length mismatch"
      else .ok ()
    | .fixedI32 validity values =>
      if validity.length ≠ expectedValidity then .error "validity length mismatch"
      else if values.length ≠ rowCount then .error "values length mismatch"
      else .ok ()
    | .fixedI64 validity values =>
      if validity.length ≠ expectedValidity then .error "validity length mismatch"
      else if values.length ≠ rowCount then .error "values length mismatch"
      else .ok ()
    | .fixedF32Bits validity values =>
      if validity.length ≠ expectedValidity then .error "validity length mismatch"
      else if values.length ≠ rowCount then .error "values length mismatch"
      else .ok ()
    | .fixedF64Bits validity values =>
      if validity.length ≠ expectedValidity then .error "validity length mismatch"
      else if values.length ≠ rowCount then .error "values length mismatch"
      else .ok ()
    | .fixedUuid validity values =>
      if validity.length ≠ expectedValidity then .error "validity length mismatch"
      else if values.length ≠ rowCount then .error "values length mismatch"
      else .ok ()
    | .fixedTimestampMicros validity values =>
      if validity.length ≠ expectedValidity then .error "validity length mismatch"
      else if values.length ≠ rowCount then .error "values length mismatch"
      else .ok ()
    | .var _ validity offsets data =>
      if validity.length ≠ expectedValidity then .error "validity length mismatch"
      else if U32MOD ≤ data.length then .error "data too large"
      else if offsets.length ≠ rowCount + 1 then .error "offsets length mismatch"
      else if (offsets.headD 1) ≠ 0 then .error "offsets[0] must be 0"
      else if ¬ offsetsNonDecreasing offsets then .error "offsets must be non-decreasing"
      else
        match offsets.getLast? with
        | none => .error "offsets length mismatch"
        | some finalOff =>
          -- `data.len() as u32` never truncates here thanks to the
          -- "data too large" guard above.
          if finalOff ≠ data.length % U32MOD then .error "final offset mismatch"
          else .ok ()

/-- `ColumnarBatch`. -/
structure ColumnarBatch where
  schema : ColumnarSchema
  rowCount : Nat
  columns : List ColumnData
deriving DecidableEq, Repr

/-- Per-pair validation loop of `ColumnarBatch::validate`
(`schema.fields().iter().zip(columns.iter())`). -/
def validateCols (rowCount : Nat) :
    List ColumnarField → List ColumnData → Except String Unit
  | [], _ => .ok ()
  | _ :: _, [] => .ok ()
  | f :: fs, c :: cs =>
    match c.validate_for_row_count f.ty rowCount with
    | .error e => .error e
    | .ok () => validateCols rowCount fs cs

/-- `ColumnarBatch::validate`. -/
def ColumnarBatch.validate (b : ColumnarBatch) : Except String Unit :=
  if b.schema.fields.isEmpty then
    .error "columnar schema must have at least one field"
  else if b.schema.fields.length ≠ b.columns.length then
    .error "schema/columns length mismatch"
  else validateCols b.rowCount b.schema.fields b.columns

/-- `ColumnarSchema::new`. -/
def mkColumnarSchema (fields : List ColumnarField) : Except String ColumnarSchema :=
  if fields.isEmpty then .error "columnar schema must have at least one field"
  else .ok ⟨fields⟩

/-- `ColumnarBatch::new` (construct then validate). -/
def mkColumnarBatch (schema : ColumnarSchema) (rowCount : Nat)
    (columns : List ColumnData) : Except String ColumnarBatch :=
  let b : ColumnarBatch := ⟨schema, rowCount, columns⟩
  match b.validate with
  | .error e => .error e
  | .ok () => .ok b

/-- `zigzag_i64_to_u64` on the i64 bit pattern `u`:
`((x as u64) << 1) ^ (((x >> 63) as u64) & 1)`.  The arithmetic right
shift `x >> 63` is all-ones exactly when the sign bit is set, so the
`& 1` mask leaves `1` for negative inputs and `0` otherwise. -/
def zigzag_i64_to_u64 (u : Nat) : Nat :=
  ((u <<< 1) % U64MOD) ^^^ (if I64SIGN ≤ u then 1 else 0)

/-- `zigzag_u64_to_i64` on the u64 value `x`:
`v = (x >> 1) as i64; neg = (x & 1) as i64; v ^ -neg` where the bit
pattern of `-1` is all-ones, so the xor complements `v` when the low
bit is set. -/
def zigzag_u64_to_i64 (x : Nat) : Nat :=
  let v := x >>> 1
  if x &&& 1 = 1 then v ^^^ (U64MOD - 1) else v

/-- Loop of `write_u64_varint`, structurally recursive on the number
of remaining 7-bit groups.  A `u64` value needs at most 10 groups, so
starting the fuel at 9 reproduces the Rust loop exactly on the `u64`
domain (after 9 divisions by 128 any `x < 2^64` is below 128). -/
def varintGo : Nat → Nat → List Nat
  | 0, x => [x]
  | fuel + 1, x => if 128 ≤ x then (x % 128 + 128) :: varintGo fuel (x / 128) else [x]

/-- `write_u64_varint`: base-128 varint with MSB continuation.
`(x as u8) | 0x80` equals `x % 128 + 128`. -/
def write_u64_varint (x : Nat) : List Nat := varintGo 9 x

/-- Loop body of `read_u64_varint`, consuming from the front of the
byte list; returns the value and the remaining bytes.  The Rust
`shift.checked_add(7)` overflow guard on `u32` is unreachable (the
`shift >= 64` check fires first) and is not modelled. -/
def readVarintAux : List Nat → Nat → Nat → Except String (Nat × List Nat)
  | [], _, _ => .error "truncated varint"
  | b :: rest, shift, acc =>
    if 64 ≤ shift then .error "varint overflow"
    else
      let lo := b &&& 127
      let acc' := acc ||| ((lo <<< shift) % U64MOD)
      if b &&& 128 = 0 then .ok (acc', rest)
      else readVarintAux rest (shift + 7) acc'

/-- `read_u64_varint` (position `pos` becomes the returned suffix). -/
def read_u64_varint (bytes : List Nat) : Except String (Nat × List Nat) :=
  readVarintAux bytes 0 0

/-- `validity_all_valid`: every row in `[0, rowCount)` has its validity
bit set.  The Rust `checked_add(7)` overflow branch (returning `false`)
is unreachable on `Nat`. -/
def validity_all_valid (validity : List Nat) (rowCount : Nat) : Bool :=
  if rowCount = 0 then true
  else
    let needed := (rowCount + 7) / 8
    if validity.length < needed then false
    else
      let rem := rowCount % 8
      let full := if rem = 0 then needed else needed - 1
      if ¬ (validity.take full).all (· = 255) then false
      else if rem = 0 then true
      else
        let mask := 2 ^ rem - 1
        (validity.getD (needed - 1) 0) &&& mask = mask

/-- `MathldbtV1EncodeWorkspace`: feature flags plus reusable scratch
buffers.  The `dict_map` hash map is not carried separately: it always
mirrors `dict_values` (raw value bytes to insertion index), so lookups
are modelled as first-occurrence search in `dict_values`. -/
structure MathldbtV1EncodeWorkspace where
  enable_dict_utf8 : Bool
  enable_delta_varint_i64 : Bool
  dict_values : List (List Nat)
  dict_indices : List Nat
  dict_indices_bytes : List Nat
  dict_offsets : List Nat
  dict_blob : List Nat
  view_var_coalesce : List Nat
  delta_buf : List Nat
deriving DecidableEq, Repr

/-- `MathldbtV1EncodeWorkspace::default()`. -/
def defaultEncodeWs : MathldbtV1EncodeWorkspace :=
  ⟨false, false, [], [], [], [], [], [], []⟩

/-- `MathldbtV1DecodeWorkspace`. -/
structure MathldbtV1DecodeWorkspace where
  dict_offsets : List Nat
deriving DecidableEq, Repr

def defaultDecodeWs : MathldbtV1DecodeWorkspace := ⟨[]⟩

/-- The zig-zag varint stream for the deltas of `values` after `prev`
(the loop body of `build_delta_varint_i64_payload`). -/
def deltaChunks (prev : Nat) : List Nat → List Nat
  | [] => []
  | v :: rest => write_u64_varint (zigzag_i64_to_u64 (wsub64 v prev)) ++ deltaChunks v rest

/-- The staged delta buffer contents for a non-empty value list: the
first value as its 8-byte little-endian image, then one zig-zag varint
per consecutive delta. -/
def delta_staged : List Nat → List Nat
  | [] => []
  | v0 :: rest => toLe 8 v0 ++ deltaChunks v0 rest

/-- `build_delta_varint_i64_payload`: clear the staging buffer, write
the first value as 8 LE bytes then one zig-zag varint per delta, and
commit only if strictly smaller than `8 * values.len()`. -/
def build_delta_varint_i64_payload (ws : MathldbtV1EncodeWorkspace)
    (values : List Nat) : MathldbtV1EncodeWorkspace × Option (List Nat) :=
  match values with
  | [] => (ws, none)
  | v0 :: rest =>
    -- ws.delta_buf.clear() then the extend calls write these bytes:
    let buf := delta_staged (v0 :: rest)
    let ws' := { ws with delta_buf := buf }
    if 8 * (rest.length + 1) ≤ buf.length then (ws', none)
    else (ws', some buf)

/-- First-occurrence index of `k` in `l` (the `dict_map` lookup: the
map is keyed on raw value bytes and stores the insertion index, which
equals the position in `dict_values`). -/
def dictLookup (l : List (List Nat)) (k : List Nat) : Option Nat :=
  match l with
  | [] => none
  | v :: rest => if v = k then some 0 else (dictLookup rest k).map (· + 1)

/-- Dictionary scan loop of `build_dict_utf8_payload`
(`for row in 0..row_count`): push index `0` for invalid rows, the
looked-up index for already-seen values and a fresh sequential index
for new values.  Errors mirror the source: `offset out of bounds` on a
bad slice, `dict too large` when a fresh index would not fit `u32`.
The row's validity byte access `validity[row / 8]` is in bounds at
every call site (the encoder checks the validity length first); out of
prudence the model reads a missing byte as `0`. -/
def dictScanGo (validity : List Nat) (offsets : List Nat) (data : List Nat) :
    Nat → Nat → List (List Nat) → List Nat →
    Except String (List (List Nat) × List Nat)
  | _, 0, values, indicesRev => .ok (values, indicesRev.reverse)
  | row, n + 1, values, indicesRev =>
    let isValid := (validity.getD (row / 8) 0) &&& (2 ^ (row % 8)) ≠ 0
    if ¬ isValid then
      dictScanGo validity offsets data (row + 1) n values (0 :: indicesRev)
    else
      let start := offsets.getD row 0
      let stop := offsets.getD (row + 1) 0
      if stop < start ∨ data.length < stop then .error "offset out of bounds"
      else
        let bytes := (data.drop start).take (stop - start)
        match dictLookup values bytes with
        | some idx =>
          dictScanGo validity offsets data (row + 1) n values (idx :: indicesRev)
        | none =>
          if U32MOD ≤ values.length then .error "dict too large"
          else
            dictScanGo validity offsets data (row + 1) n (values ++ [bytes])
              (values.length :: indicesRev)

/-- The dictionary scan over all `rowCount` rows. -/
def dictScan (validity : List Nat) (offsets : List Nat) (data : List Nat)
    (rowCount : Nat) : Except String (List (List Nat) × List Nat) :=
  dictScanGo validity offsets data 0 rowCount [] []

/-- Index byte image by width (the `match index_width` block):
width 1 pushes `idx as u8`, width 2 errors with `dict index overflow`
when an index does not fit `u16`, width 4 writes 4 LE bytes. -/
def indicesBytes2 : List Nat → Except String (List Nat)
  | [] => .ok []
  | i :: rest =>
    if 65536 ≤ i then .error "dict index overflow"
    else
      match indicesBytes2 rest with
      | .error e => .error e
      | .ok bs => .ok (toLe 2 i ++ bs)

def buildIndicesBytes (indexWidth : Nat) (indices : List Nat) :
    Except String (List Nat) :=
  match indexWidth with
  | 1 => .ok (indices.flatMap (toLe 1))
  | 2 => indicesBytes2 indices
  | 4 => .ok (indices.flatMap (toLe 4))
  | _ => .error "invalid index width"

/-- Cumulative dictionary offsets (`ws.dict_offsets`): start at `0`,
error `dict entry too large` when an entry length does not fit `u32`
and `dict overflow` when the running `u32` total would overflow.
Returns the offsets and the final total. -/
def buildDictOffsetsGo : List (List Nat) → Nat → List Nat →
    Except String (List Nat × Nat)
  | [], total, accRev => .ok (accRev.reverse, total)
  | v :: rest, total, accRev =>
    if U32MOD ≤ v.length then .error "dict entry too large"
    else if U32MOD ≤ total + v.length then .error "dict overflow"
    else buildDictOffsetsGo rest (total + v.length) ((total + v.length) :: accRev)

def buildDictOffsets (values : List (List Nat)) :
    Except String (List Nat × Nat) :=
  buildDictOffsetsGo values 0 [0]

/-- `build_dict_utf8_payload`.  Returns the updated workspace and
`some (indices_bytes, dict_blob)` when the dictionary encoding is
committed, `none` when falling back to plain. -/
def build_dict_utf8_payload (ws : MathldbtV1EncodeWorkspace)
    (validity : List Nat) (rowCount : Nat) (offsets : List Nat)
    (data : List Nat) :
    Except String (MathldbtV1EncodeWorkspace × Option (List Nat × List Nat)) :=
  if rowCount = 0 then .ok (ws, none)
  else if offsets.length ≠ rowCount + 1 then .ok (ws, none)
  else if U32MOD ≤ data.length then .ok (ws, none)
  else
    match dictScan validity offsets data rowCount with
    | .error e => .error e
    | .ok (values, indices) =>
      let ws := { ws with dict_values := values, dict_indices := indices }
      let dictCount := values.length
      if dictCount = 0 then .ok (ws, none)
      else
        let indexWidth : Nat :=
          if dictCount ≤ 256 then 1 else if dictCount ≤ 65536 then 2 else 4
        -- row_count.checked_mul(index_width) cannot overflow on Nat.
        let indicesLen := rowCount * indexWidth
        match buildIndicesBytes indexWidth indices with
        | .error e => .error e
        | .ok ib =>
          let ws := { ws with dict_indices_bytes := ib }
          if ib.length ≠ indicesLen then .error "indices length mismatch"
          else
            match buildDictOffsets values with
            | .error e => .error e
            | .ok (dictOffsets, _total) =>
              let ws := { ws with dict_offsets := dictOffsets }
              if U32MOD ≤ dictCount then .error "dict too large"
              else
                let blob :=
                  indexWidth :: (toLe 4 dictCount ++
                    dictOffsets.flatMap (toLe 4) ++ values.flatten)
                let ws := { ws with dict_blob := blob }
                let plainOffsetsLen := (rowCount + 1) * 4
                let plainTotal := plainOffsetsLen + data.length
                let dictTotal := ib.length + blob.length
                if plainTotal ≤ dictTotal then .ok (ws, none)
                else .ok (ws, some (ib, blob))

/-- `write_u16_len_bytes`: u16 length prefix, error `name too long`
when the length does not fit. -/
def writeU16LenBytes (l : List Nat) : Except String (List Nat) :=
  if 65536 ≤ l.length then .error "name too long"
  else .ok (toLe 2 l.length ++ l)

/-- `write_u32_len_bytes`: u32 length prefix, error `payload too large`
when the length does not fit. -/
def writeU32LenBytes (l : List Nat) : Except String (List Nat) :=
  if U32MOD ≤ l.length then .error "payload too large"
  else .ok (toLe 4 l.length ++ l)

/-- Delta-varint encoding selection for an `I64` / `TimestampTzMicros`
column (the two guarded match arms of the encoders): chosen only when
the feature flag is on, the field type matches the variant and all
rows are valid, and committed only when the builder returns a staged
payload. -/
def select_delta_i64 (ws : MathldbtV1EncodeWorkspace) (tyMatches : Bool)
    (validity : List Nat) (rowCount : Nat) (values : List Nat) :
    MathldbtV1EncodeWorkspace × Nat × Option (List Nat) :=
  if ws.enable_delta_varint_i64 && tyMatches &&
      validity_all_valid validity rowCount then
    match build_delta_varint_i64_payload ws values with
    | (ws', some p) => (ws', ENC_DELTA_VARINT_I64, some p)
    | (ws', none) => (ws', ENC_PLAIN, none)
  else (ws, ENC_PLAIN, none)

/-- Dictionary encoding selection for a variable-length column (the
guarded `ColumnData::Var` arm plus the plain fallback arm). -/
def select_dict_var (ws : MathldbtV1EncodeWorkspace) (ty : ColumnarType)
    (validity : List Nat) (rowCount : Nat) (offsets : List Nat)
    (data : List Nat) :
    MathldbtV1EncodeWorkspace ×
      Except String (Nat × Option (List Nat × List Nat)) :=
  if ws.enable_dict_utf8 && (ty == .utf8 || ty == .jsonbText) then
    match build_dict_utf8_payload ws validity rowCount offsets data with
    | .error e => (ws, .error e)
    | .ok (ws', some p) => (ws', .ok (ENC_DICT_UTF8, some p))
    | .ok (ws', none) => (ws', .ok (ENC_PLAIN, none))
  else (ws, .ok (ENC_PLAIN, none))

/-- Plain fixed-width payload emission: u32 byte-length prefix, the
per-element little-endian image, then the empty `payload2` length.
`checked_byte_len` ("values overflow") cannot overflow on `Nat`; the
`try_into::<u32>` on the byte length is the `payload too large` check. -/
def emitFixedPlain (k : Nat) (rowCount : Nat) (values : List Nat) :
    Option String × List Nat :=
  let byteLen := rowCount * k
  if U32MOD ≤ byteLen then (some "payload too large", [])
  else (none, toLe 4 byteLen ++ values.flatMap (toLe k) ++ toLe 4 0)

/-- Payload-section emission for one owned column (the big
`match col` after the descriptor header writes).  Returns the emitted
bytes, or the error plus the bytes written before it. -/
def emitPayload (rowCount : Nat) (field : ColumnarField) (col : ColumnData)
    (encId : Nat) (dictP : Option (List Nat × List Nat))
    (deltaP : Option (List Nat)) : Option String × List Nat :=
  match col with
  | .fixedBool _ values =>
    if values.length ≠ rowCount then (some "values length mismatch", [])
    else
      match writeU32LenBytes values with
      | .error e => (some e, [])
      | .ok bs => (none, bs ++ toLe 4 0)
  | .fixedI16 _ values =>
    if values.length ≠ rowCount then (some "values length mismatch", [])
    else emitFixedPlain 2 rowCount values
  | .fixedI32 _ values =>
    if values.length ≠ rowCount then (some "values length mismatch", [])
    else emitFixedPlain 4 rowCount values
  | .fixedI64 _ values =>
    if values.length ≠ rowCount then (some "values length mismatch", [])
    else if encId = ENC_DELTA_VARINT_I64 then
      match deltaP with
      | none => (some "missing delta payload", [])
      | some p =>
        match writeU32LenBytes p with
        | .error e => (some e, [])
        | .ok bs => (none, bs ++ toLe 4 0)
    else emitFixedPlain 8 rowCount values
  | .fixedF32Bits _ values =>
    if values.length ≠ rowCount then (some "values length mismatch", [])
    else emitFixedPlain 4 rowCount values
  | .fixedF64Bits _ values =>
    if values.length ≠ rowCount then (some "values length mismatch", [])
    else emitFixedPlain 8 rowCount values
  | .fixedUuid _ values =>
    if values.length ≠ rowCount then (some "values length mismatch", [])
    else
      let byteLen := rowCount * 16
      if U32MOD ≤ byteLen then (some "payload too large", [])
      else (none, toLe 4 byteLen ++ values.flatten ++ toLe 4 0)
  | .fixedTimestampMicros _ values =>
    if values.length ≠ rowCount then (some "values length mismatch", [])
    else if encId = ENC_DELTA_VARINT_I64 then
      match deltaP with
      | none => (some "missing delta payload", [])
      | some p =>
        match writeU32LenBytes p with
        | .error e => (some e, [])
        | .ok bs => (none, bs ++ toLe 4 0)
    else emitFixedPlain 8 rowCount values
  | .var ty _ offsets data =>
    if encId = ENC_PLAIN then
      if ty ≠ field.ty then (some "internal type mismatch", [])
      -- row_count.checked_add(1) ("row_count too large") cannot
      -- overflow on Nat.
      else if offsets.length ≠ rowCount + 1 then
        (some "offsets length mismatch", [])
      else
        let obl := (rowCount + 1) * 4
        if U32MOD ≤ obl then (some "payload too large", [])
        else
          let pre := toLe 4 obl ++ offsets.flatMap (toLe 4)
          match writeU32LenBytes data with
          | .error e => (some e, pre)
          | .ok bs => (none, pre ++ bs)
    else if encId = ENC_DICT_UTF8 then
      if ty ≠ field.ty then (some "internal type mismatch", [])
      else
        match dictP with
        | none => (some "missing dict payload", [])
        | some (ib, blob) =>
          match writeU32LenBytes ib with
          | .error e => (some e, [])
          | .ok b1 =>
            match writeU32LenBytes blob with
            | .error e => (some e, b1)
            | .ok b2 => (none, b1 ++ b2)
    else (some "invalid encoding for varlen column", [])

/-- One iteration of the owned-batch encoder's per-column loop:
type id write, validity length check, encoding selection, descriptor
header writes, payload writes.  Returns the error (if any), the bytes
this column appended, and the updated workspace. -/
def encodeColumnB (ws : MathldbtV1EncodeWorkspace) (rowCount : Nat)
    (field : ColumnarField) (col : ColumnData) :
    Option String × List Nat × MathldbtV1EncodeWorkspace :=
  let tyB := toLe 2 (type_id field.ty)
  let nameBytes := field.name.getD []
  let validity := col.validityBytes
  if validity.length ≠ ceilDiv8 rowCount then
    (some "validity length mismatch", tyB, ws)
  else
    let sel : MathldbtV1EncodeWorkspace ×
        Except String (Nat × Option (List Nat × List Nat) × Option (List Nat)) :=
      match col with
      | .var ty _ offsets data =>
        match select_dict_var ws ty validity rowCount offsets data with
        | (ws', .error e) => (ws', .error e)
        | (ws', .ok (encId, dp)) => (ws', .ok (encId, dp, none))
      | .fixedI64 _ values =>
        match select_delta_i64 ws (field.ty == .i64) validity rowCount values with
        | (ws', encId, dp) => (ws', .ok (encId, none, dp))
      | .fixedTimestampMicros _ values =>
        match select_delta_i64 ws (field.ty == .timestampTzMicros) validity
            rowCount values with
        | (ws', encId, dp) => (ws', .ok (encId, none, dp))
      | _ => (ws, .ok (ENC_PLAIN, none, none))
    match sel with
    | (ws', .error e) => (some e, tyB, ws')
    | (ws', .ok (encId, dictP, deltaP)) =>
      let pre := tyB ++ toLe 2 encId ++ toLe 2 0
      match writeU16LenBytes nameBytes with
      | .error e => (some e, pre, ws')
      | .ok nb =>
        match writeU32LenBytes validity with
        | .error e => (some e, pre ++ nb, ws')
        | .ok vb =>
          match emitPayload rowCount field col encId dictP deltaP with
          | (some e, part) => (some e, pre ++ nb ++ vb ++ part, ws')
          | (none, bs) => (none, pre ++ nb ++ vb ++ bs, ws')

/-- The owned-batch per-column loop, appending each column's bytes. -/
def encColsB (rowCount : Nat) :
    List (ColumnarField × ColumnData) → List Nat →
    MathldbtV1EncodeWorkspace →
    Option String × List Nat × MathldbtV1EncodeWorkspace
  | [], acc, ws => (none, acc, ws)
  | (f, c) :: rest, acc, ws =>
    match encodeColumnB ws rowCount f c with
    | (some e, bs, ws') => (some e, acc ++ bs, ws')
    | (none, bs, ws') => encColsB rowCount rest (acc ++ bs) ws'

/-- Frame header bytes common to both encoders (after the clear):
magic, version, reserved flags. -/
def headerPrefix : List Nat := MAGIC ++ toLe 2 VERSION ++ toLe 2 0

/-- Body of `encode_mathldbt_v1_into_with_workspace` after the
`validate` / `clear` prologue. -/
def encodeCoreB (batch : ColumnarBatch) (ws : MathldbtV1EncodeWorkspace) :
    Option String × List Nat × MathldbtV1EncodeWorkspace :=
  if U32MOD ≤ batch.rowCount then (some "row_count too large", headerPrefix, ws)
  else
    let pre := headerPrefix ++ toLe 4 batch.rowCount
    if 65536 ≤ batch.columns.length then (some "col_count too large", pre, ws)
    else if batch.columns.length = 0 then
      (some "MATHLDBT must have at least one column", pre, ws)
    else
      let pre := pre ++ toLe 2 batch.columns.length ++ toLe 2 0
      encColsB batch.rowCount (batch.schema.fields.zip batch.columns) pre ws

/-- `encode_mathldbt_v1_into_with_workspace`: validate, clear the
output buffer, then write the frame.  Returns the error (if any), the
final buffer contents and the updated workspace; on a validation error
the buffer is returned untouched because the clear happens after
validation. -/
def encode_mathldbt_v1_into_with_workspace (batch : ColumnarBatch)
    (out : List Nat) (ws : MathldbtV1EncodeWorkspace) :
    Option String × List Nat × MathldbtV1EncodeWorkspace :=
  match batch.validate with
  | .error e => (some e, out, ws)
  | .ok () => encodeCoreB batch ws

/-- `encode_mathldbt_v1_into` (fresh default workspace). -/
def encode_mathldbt_v1_into (batch : ColumnarBatch) (out : List Nat) :
    Option String × List Nat :=
  match encode_mathldbt_v1_into_with_workspace batch out defaultEncodeWs with
  | (e, buf, _) => (e, buf)

/-- `VarDataView`: contiguous borrowed data, or an inline slice plus
ordered chunks. -/
inductive VarDataView where
  | contiguous (bytes : List Nat)
  | chunks (inline : List Nat) (chunkList : List (List Nat))
deriving DecidableEq, Repr

/-- `VarDataView::len`.  The Rust `checked_add` overflow error
("data too large") is unreachable on `Nat`. -/
def VarDataView.lenTotal : VarDataView → Nat
  | .contiguous b => b.length
  | .chunks i cs => i.length + (cs.map List.length).sum

/-- The logical byte content of a view's variable-length data. -/
def VarDataView.flattenData : VarDataView → List Nat
  | .contiguous b => b
  | .chunks i cs => i ++ cs.flatten

/-- `ColumnDataView`: borrowed column payload variants. -/
inductive ColumnDataView where
  | fixedBool (validity : List Nat) (values : List Nat)
  | fixedI16 (validity : List Nat) (values : List Nat)
  | fixedI32 (validity : List Nat) (values : List Nat)
  | fixedI64 (validity : List Nat) (values : List Nat)
  | fixedF32Bits (validity : List Nat) (values : List Nat)
  | fixedF64Bits (validity : List Nat) (values : List Nat)
  | fixedUuid (validity : List Nat) (values : List (List Nat))
  | fixedTimestampMicros (validity : List Nat) (values : List Nat)
  | var (ty : ColumnarType) (validity : List Nat) (offsets : List Nat)
      (data : VarDataView)
deriving DecidableEq, Repr

/-- `ColumnDataView::ty`. -/
def ColumnDataView.ty : ColumnDataView → ColumnarType
  | .fixedBool .. => .bool
  | .fixedI16 .. => .i16
  | .fixedI32 .. => .i32
  | .fixedI64 .. => .i64
  | .fixedF32Bits .. => .f32
  | .fixedF64Bits .. => .f64
  | .fixedUuid .. => .uuid
  | .fixedTimestampMicros .. => .timestampTzMicros
  | .var ty .. => ty

/-- Validity slice of a view column. -/
def ColumnDataView.validityBytes : ColumnDataView → List Nat
  | .fixedBool v _ => v
  | .fixedI16 v _ => v
  | .fixedI32 v _ => v
  | .fixedI64 v _ => v
  | .fixedF32Bits v _ => v
  | .fixedF64Bits v _ => v
  | .fixedUuid v _ => v
  | .fixedTimestampMicros v _ => v
  | .var _ v _ _ => v

/-- `ColumnDataView::validate_for_row_count`. -/
def ColumnDataView.validate_for_row_count (c : ColumnDataView)
    (ty : ColumnarType) (rowCount : Nat) : Except String Unit :=
  if c.ty ≠ ty then .error "column type mismatch"
  else
    let expectedValidity := ceilDiv8 rowCount
    match c with
    | .fixedBool validity values =>
      if validity.length ≠ expectedValidity then .error "validity length mismatch"
      else if values.length ≠ rowCount then .error "values length mismatch"
      else .ok ()
    | .fixedI16 validity values =>
      if validity.length ≠ expectedValidity then .error "validity length mismatch"
      else if values.length ≠ rowCount then .error "values length mismatch"
      else .ok ()
    | .fixedI32 validity values =>
      if validity.length ≠ expectedValidity then .error "validity length mismatch"
      else if values.length ≠ rowCount then .error "values length mismatch"
      else .ok ()
    | .fixedI64 validity values =>
      if validity.length ≠ expectedValidity then .error "validity length mismatch"
      else if values.length ≠ rowCount then .error "values length mismatch"
      else .ok ()
    | .fixedF32Bits validity values =>
      if validity.length ≠ expectedValidity then .error "validity length mismatch"
      else if values.length ≠ rowCount then .error "values length mismatch"
      else .ok ()
    | .fixedF64Bits validity values =>
      if validity.length ≠ expectedValidity then .error "validity length mismatch"
      else if values.length ≠ rowCount then .error "values length mismatch"
      else .ok ()
    | .fixedUuid validity values =>
      if validity.length ≠ expectedValidity then .error "validity length mismatch"
      else if values.length ≠ rowCount then .error "values length mismatch"
      else .ok ()
    | .fixedTimestampMicros validity values =>
      if validity.length ≠ expectedValidity then .error "validity length mismatch"
      else if values.length ≠ rowCount then .error "values length mismatch"
      else .ok ()
    | .var _ validity offsets data =>
      if validity.length ≠ expectedValidity then .error "validity length mismatch"
      else
        let dataLen := data.lenTotal
        if U32MOD ≤ dataLen then .error "data too large"
        else if offsets.length ≠ rowCount + 1 then .error "offsets length mismatch"
        else if (offsets.headD 1) ≠ 0 then .error "offsets[0] must be 0"
        else if ¬ offsetsNonDecreasing offsets then
          .error "offsets must be non-decreasing"
        else
          match offsets.getLast? with
          | none => .error "offsets length mismatch"
          | some finalOff =>
            if finalOff ≠ dataLen % U32MOD then .error "final offset mismatch"
            else .ok ()

/-- `ColumnarBatchView`. -/
structure ColumnarBatchView where
  schema : ColumnarSchema
  rowCount : Nat
  columns : List ColumnDataView
deriving DecidableEq, Repr

/-- Per-pair validation loop of `ColumnarBatchView::validate`. -/
def validateColsV (rowCount : Nat) :
    List ColumnarField → List ColumnDataView → Except String Unit
  | [], _ => .ok ()
  | _ :: _, [] => .ok ()
  | f :: fs, c :: cs =>
    match c.validate_for_row_count f.ty rowCount with
    | .error e => .error e
    | .ok () => validateColsV rowCount fs cs

/-- `ColumnarBatchView::validate`. -/
def ColumnarBatchView.validate (v : ColumnarBatchView) : Except String Unit :=
  if v.schema.fields.isEmpty then
    .error "columnar schema must have at least one field"
  else if v.schema.fields.length ≠ v.columns.length then
    .error "schema/columns length mismatch"
  else validateColsV v.rowCount v.schema.fields v.columns

/-- Payload-section emission for one view column.  Identical to
`emitPayload` except that chunked variable-length data is written as a
single length prefix (the summed length) followed by the inline slice
and each chunk in order. -/
def emitPayloadV (rowCount : Nat) (field : ColumnarField)
    (col : ColumnDataView) (encId : Nat)
    (dictP : Option (List Nat × List Nat)) (deltaP : Option (List Nat)) :
    Option String × List Nat :=
  match col with
  | .fixedBool _ values =>
    if values.length ≠ rowCount then (some "values length mismatch", [])
    else
      match writeU32LenBytes values with
      | .error e => (some e, [])
      | .ok bs => (none, bs ++ toLe 4 0)
  | .fixedI16 _ values =>
    if values.length ≠ rowCount then (some "values length mismatch", [])
    else emitFixedPlain 2 rowCount values
  | .fixedI32 _ values =>
    if values.length ≠ rowCount then (some "values length mismatch", [])
    else emitFixedPlain 4 rowCount values
  | .fixedI64 _ values =>
    if values.length ≠ rowCount then (some "values length mismatch", [])
    else if encId = ENC_DELTA_VARINT_I64 then
      match deltaP with
      | none => (some "missing delta payload", [])
      | some p =>
        match writeU32LenBytes p with
        | .error e => (some e, [])
        | .ok bs => (none, bs ++ toLe 4 0)
    else emitFixedPlain 8 rowCount values
  | .fixedF32Bits _ values =>
    if values.length ≠ rowCount then (some "values length mismatch", [])
    else emitFixedPlain 4 rowCount values
  | .fixedF64Bits _ values =>
    if values.length ≠ rowCount then (some "values length mismatch", [])
    else emitFixedPlain 8 rowCount values
  | .fixedUuid _ values =>
    if values.length ≠ rowCount then (some "values length mismatch", [])
    else
      let byteLen := rowCount * 16
      if U32MOD ≤ byteLen then (some "payload too large", [])
      else (none, toLe 4 byteLen ++ values.flatten ++ toLe 4 0)
  | .fixedTimestampMicros _ values =>
    if values.length ≠ rowCount then (some "values length mismatch", [])
    else if encId = ENC_DELTA_VARINT_I64 then
      match deltaP with
      | none => (some "missing delta payload", [])
      | some p =>
        match writeU32LenBytes p with
        | .error e => (some e, [])
        | .ok bs => (none, bs ++ toLe 4 0)
    else emitFixedPlain 8 rowCount values
  | .var ty _ offsets data =>
    if encId = ENC_PLAIN then
      if ty ≠ field.ty then (some "internal type mismatch", [])
      else if offsets.length ≠ rowCount + 1 then
        (some "offsets length mismatch", [])
      else
        let obl := (rowCount + 1) * 4
        if U32MOD ≤ obl then (some "payload too large", [])
        else
          let pre := toLe 4 obl ++ offsets.flatMap (toLe 4)
          match data with
          | .contiguous bytes =>
            match writeU32LenBytes bytes with
            | .error e => (some e, pre)
            | .ok bs => (none, pre ++ bs)
          | .chunks inline cs =>
            -- data.len()? cannot fail on Nat; the u32 cast of the
            -- summed length is the `payload too large` check.
            let dataLen := VarDataView.lenTotal (.chunks inline cs)
            if U32MOD ≤ dataLen then (some "payload too large", pre)
            else (none, pre ++ toLe 4 dataLen ++ inline ++ cs.flatten)
    else if encId = ENC_DICT_UTF8 then
      if ty ≠ field.ty then (some "internal type mismatch", [])
      else
        match dictP with
        | none => (some "missing dict payload", [])
        | some (ib, blob) =>
          match writeU32LenBytes ib with
          | .error e => (some e, [])
          | .ok b1 =>
            match writeU32LenBytes blob with
            | .error e => (some e, b1)
            | .ok b2 => (none, b1 ++ b2)
    else (some "invalid encoding for varlen column", [])

/-- One iteration of the fast-path encoder's per-column loop.  The only
differences from `encodeColumnB` are that chunked variable-length data
is coalesced (through `ws.view_var_coalesce`) before dictionary
construction, and payloads are written by `emitPayloadV`. -/
def encodeColumnV (ws : MathldbtV1EncodeWorkspace) (rowCount : Nat)
    (field : ColumnarField) (col : ColumnDataView) :
    Option String × List Nat × MathldbtV1EncodeWorkspace :=
  let tyB := toLe 2 (type_id field.ty)
  let nameBytes := field.name.getD []
  let validity := col.validityBytes
  if validity.length ≠ ceilDiv8 rowCount then
    (some "validity length mismatch", tyB, ws)
  else
    let sel : MathldbtV1EncodeWorkspace ×
        Except String (Nat × Option (List Nat × List Nat) × Option (List Nat)) :=
      match col with
      | .var ty _ offsets data =>
        if ws.enable_dict_utf8 && (ty == .utf8 || ty == .jsonbText) then
          match data with
          | .contiguous bytes =>
            match build_dict_utf8_payload ws validity rowCount offsets bytes with
            | .error e => (ws, .error e)
            | .ok (ws', some p) => (ws', .ok (ENC_DICT_UTF8, some p, none))
            | .ok (ws', none) => (ws', .ok (ENC_PLAIN, none, none))
          | .chunks inline cs =>
            -- take ws.view_var_coalesce, clear, extend with inline and
            -- each chunk; restored into the workspace afterwards.
            let coalesced := inline ++ cs.flatten
            match build_dict_utf8_payload ws validity rowCount offsets
                coalesced with
            | .error e =>
              ({ ws with view_var_coalesce := coalesced }, .error e)
            | .ok (ws', some p) =>
              ({ ws' with view_var_coalesce := coalesced },
               .ok (ENC_DICT_UTF8, some p, none))
            | .ok (ws', none) =>
              ({ ws' with view_var_coalesce := coalesced },
               .ok (ENC_PLAIN, none, none))
        else (ws, .ok (ENC_PLAIN, none, none))
      | .fixedI64 _ values =>
        match select_delta_i64 ws (field.ty == .i64) validity rowCount values with
        | (ws', encId, dp) => (ws', .ok (encId, none, dp))
      | .fixedTimestampMicros _ values =>
        match select_delta_i64 ws (field.ty == .timestampTzMicros) validity
            rowCount values with
        | (ws', encId, dp) => (ws', .ok (encId, none, dp))
      | _ => (ws, .ok (ENC_PLAIN, none, none))
    match sel with
    | (ws', .error e) => (some e, tyB, ws')
    | (ws', .ok (encId, dictP, deltaP)) =>
      let pre := tyB ++ toLe 2 encId ++ toLe 2 0
      match writeU16LenBytes nameBytes with
      | .error e => (some e, pre, ws')
      | .ok nb =>
        match writeU32LenBytes validity with
        | .error e => (some e, pre ++ nb, ws')
        | .ok vb =>
          match emitPayloadV rowCount field col encId dictP deltaP with
          | (some e, part) => (some e, pre ++ nb ++ vb ++ part, ws')
          | (none, bs) => (none, pre ++ nb ++ vb ++ bs, ws')

/-- The fast-path per-column loop. -/
def encColsV (rowCount : Nat) :
    List (ColumnarField × ColumnDataView) → List Nat →
    MathldbtV1EncodeWorkspace →
    Option String × List Nat × MathldbtV1EncodeWorkspace
  | [], acc, ws => (none, acc, ws)
  | (f, c) :: rest, acc, ws =>
    match encodeColumnV ws rowCount f c with
    | (some e, bs, ws') => (some e, acc ++ bs, ws')
    | (none, bs, ws') => encColsV rowCount rest (acc ++ bs) ws'

/-- Body of `encode_mathldbt_v1_fast_path_into_with_workspace` after
the `validate` / `clear` prologue. -/
def encodeCoreV (view : ColumnarBatchView) (ws : MathldbtV1EncodeWorkspace) :
    Option String × List Nat × MathldbtV1EncodeWorkspace :=
  if U32MOD ≤ view.rowCount then (some "row_count too large", headerPrefix, ws)
  else
    let pre := headerPrefix ++ toLe 4 view.rowCount
    if 65536 ≤ view.columns.length then (some "col_count too large", pre, ws)
    else if view.columns.length = 0 then
      (some "MATHLDBT must have at least one column", pre, ws)
    else
      let pre := pre ++ toLe 2 view.columns.length ++ toLe 2 0
      encColsV view.rowCount (view.schema.fields.zip view.columns) pre ws

/-- `encode_mathldbt_v1_fast_path_into_with_workspace`. -/
def encode_mathldbt_v1_fast_path_into_with_workspace
    (view : ColumnarBatchView) (out : List Nat)
    (ws : MathldbtV1EncodeWorkspace) :
    Option String × List Nat × MathldbtV1EncodeWorkspace :=
  match view.validate with
  | .error e => (some e, out, ws)
  | .ok () => encodeCoreV view ws

/-- The decoder's `take` helper: consume `n` bytes from the front.
The `pos.checked_add(n)` overflow error ("decode overflow") is
unreachable on `Nat`. -/
def takeN (bytes : List Nat) (n : Nat) : Except String (List Nat × List Nat) :=
  if n ≤ bytes.length then .ok (bytes.take n, bytes.drop n)
  else .error "truncated mathldbt"

/-- The decoder's `read_u16_le`. -/
def readU16 (bytes : List Nat) : Except String (Nat × List Nat) :=
  match takeN bytes 2 with
  | .error e => .error e
  | .ok (c, r) => .ok (fromLe c, r)

/-- The decoder's `read_u32_le`. -/
def readU32 (bytes : List Nat) : Except String (Nat × List Nat) :=
  match takeN bytes 4 with
  | .error e => .error e
  | .ok (c, r) => .ok (fromLe c, r)

/-- Delta-decoding loop (`for i in 1..row_count`): read one varint per
remaining row, zig-zag decode, add with wrapping, and finally require
the payload to be fully consumed. -/
def deltaDecodeGo : List Nat → Nat → Nat → Except String (List Nat)
  | rest, _, 0 =>
    if rest.isEmpty then .ok []
    else .error "trailing bytes in delta payload"
  | rest, prev, k + 1 =>
    match read_u64_varint rest with
    | .error e => .error e
    | .ok (zz, rest') =>
      let cur := wadd64 prev (zigzag_u64_to_i64 zz)
      match deltaDecodeGo rest' cur k with
      | .error e => .error e
      | .ok vs => .ok (cur :: vs)

/-- `decode_delta_varint_i64_from_payload`, returning the decoded
values (the Rust version fills a caller-provided `row_count`-sized
buffer; its `out.len() < row_count` guard is unreachable at its call
sites). -/
def decode_delta_varint_i64_from_payload (payload : List Nat)
    (rowCount : Nat) : Except String (List Nat) :=
  if rowCount = 0 then .ok []
  else if payload.length < 8 then .error "delta payload truncated"
  else
    let base := fromLe (payload.take 8)
    match deltaDecodeGo (payload.drop 8) base (rowCount - 1) with
    | .error e => .error e
    | .ok vs => .ok (base :: vs)

/-- Row materialization loop of `decode_dict_utf8_to_var_col`:
running u32 total, output offsets (reversed accumulator seeded with
the pushed `0`) and output data.  The `(end - start).try_into::<u32>()`
error ("dict expansion too large") is unreachable since both bounds
are u32 values. -/
def dictMatGo (validity dictOffsets dictBytes indicesBytes : List Nat)
    (indexWidth dictCount : Nat) :
    Nat → Nat → Nat → List Nat → List Nat →
    Except String (List Nat × List Nat)
  | _, 0, _, offsAcc, dataAcc => .ok (offsAcc.reverse, dataAcc)
  | row, n + 1, total, offsAcc, dataAcc =>
    let isValid := (validity.getD (row / 8) 0) &&& (2 ^ (row % 8)) ≠ 0
    if ¬ isValid then
      dictMatGo validity dictOffsets dictBytes indicesBytes indexWidth
        dictCount (row + 1) n total (total :: offsAcc) dataAcc
    else
      match (match indexWidth with
             | 1 => .ok (indicesBytes.getD row 0)
             | 2 => .ok (fromLe ((indicesBytes.drop (row * 2)).take 2))
             | 4 => .ok (fromLe ((indicesBytes.drop (row * 4)).take 4))
             | _ => .error "invalid index width" :
             Except String Nat) with
      | .error e => .error e
      | .ok idx =>
        if dictCount ≤ idx then .error "dict index out of bounds"
        else
          let start := dictOffsets.getD idx 0
          let stop := dictOffsets.getD (idx + 1) 0
          let slice := (dictBytes.drop start).take (stop - start)
          if U32MOD ≤ total + (stop - start) then
            .error "dict expansion overflow"
          else
            dictMatGo validity dictOffsets dictBytes indicesBytes indexWidth
              dictCount (row + 1) n (total + (stop - start))
              ((total + (stop - start)) :: offsAcc) (dataAcc ++ slice)

/-- `decode_dict_utf8_to_var_col`: parse the dictionary blob header,
offsets and bytes, validate them, then materialize each row.  Returns
the updated workspace, the output offsets and the output data. -/
def decode_dict_utf8_to_var_col (ws : MathldbtV1DecodeWorkspace)
    (rowCount : Nat) (validity indicesBytes dictBlob : List Nat) :
    Except String (MathldbtV1DecodeWorkspace × List Nat × List Nat) :=
  if rowCount = 0 then .ok (ws, [0], [])
  else if dictBlob.length < 5 then .error "dict blob truncated"
  else
    let indexWidth := dictBlob.getD 0 0
    if indexWidth ≠ 1 ∧ indexWidth ≠ 2 ∧ indexWidth ≠ 4 then
      .error "invalid dict index width"
    else
      let dictCount := fromLe ((dictBlob.drop 1).take 4)
      -- (dict_count + 1).checked_mul(4) and the offsets_end
      -- checked_add ("dict offsets overflow") cannot overflow on Nat.
      let offsetsBytesLen := (dictCount + 1) * 4
      let offsetsEnd := 5 + offsetsBytesLen
      if dictBlob.length < offsetsEnd then .error "dict offsets truncated"
      else
        let dictOffsets := chunkMap fromLe 3 ((dictBlob.drop 5).take offsetsBytesLen)
        let ws := { ws with dict_offsets := dictOffsets }
        let dictBytes := dictBlob.drop offsetsEnd
        let dictTotal := dictOffsets.getLastD 0
        if dictTotal ≠ dictBytes.length then .error "dict final offset mismatch"
        else if ¬ offsetsNonDecreasing dictOffsets then
          .error "dict offsets must be non-decreasing"
        else
          let expectedIndicesLen := rowCount * indexWidth
          if indicesBytes.length ≠ expectedIndicesLen then
            .error "indices length mismatch"
          else
            match dictMatGo validity dictOffsets dictBytes indicesBytes
                indexWidth dictCount 0 rowCount 0 [0] [] with
            | .error e => .error e
            | .ok (offs, dat) => .ok (ws, offs, dat)

/-- UTF-8 validity of a byte list (the `std::str::from_utf8` check used
for column names), per the UTF-8 definition: no overlong forms, no
surrogates, max U+10FFFF. -/
def utf8Cont (c : Nat) : Bool := 128 ≤ c && c < 192

def utf8Valid : List Nat → Bool
  | [] => true
  | b :: rest =>
    if b < 128 then utf8Valid rest
    else if b < 194 then false
    else if b < 224 then
      match rest with
      | c1 :: r => utf8Cont c1 && utf8Valid r
      | _ => false
    else if b = 224 then
      match rest with
      | c1 :: c2 :: r => (160 ≤ c1 && c1 < 192) && utf8Cont c2 && utf8Valid r
      | _ => false
    else if b < 237 then
      match rest with
      | c1 :: c2 :: r => utf8Cont c1 && utf8Cont c2 && utf8Valid r
      | _ => false
    else if b = 237 then
      match rest with
      | c1 :: c2 :: r => (128 ≤ c1 && c1 < 160) && utf8Cont c2 && utf8Valid r
      | _ => false
    else if b < 240 then
      match rest with
      | c1 :: c2 :: r => utf8Cont c1 && utf8Cont c2 && utf8Valid r
      | _ => false
    else if b = 240 then
      match rest with
      | c1 :: c2 :: c3 :: r =>
        (144 ≤ c1 && c1 < 192) && utf8Cont c2 && utf8Cont c3 && utf8Valid r
      | _ => false
    else if b < 244 then
      match rest with
      | c1 :: c2 :: c3 :: r =>
        utf8Cont c1 && utf8Cont c2 && utf8Cont c3 && utf8Valid r
      | _ => false
    else if b = 244 then
      match rest with
      | c1 :: c2 :: c3 :: r =>
        (128 ≤ c1 && c1 < 144) && utf8Cont c2 && utf8Cont c3 && utf8Valid r
      | _ => false
    else false

/-- Per-column payload materialization (the `match ty` body of the
allocating decoder, after the descriptor fields have been read). -/
def decodeColPayload (ws : MathldbtV1DecodeWorkspace) (rowCount : Nat)
    (ty : ColumnarType) (encIdU16 : Nat)
    (validityBytes payload1 payload2 : List Nat) :
    Except String (MathldbtV1DecodeWorkspace × ColumnData) :=
  match ty with
  | .utf8 | .bytes | .jsonbText =>
    if encIdU16 = ENC_PLAIN then
      -- (row_count + 1).checked_mul(4) ("offsets overflow") cannot
      -- overflow on Nat.
      let expectedOffsetsLen := (rowCount + 1) * 4
      if payload1.length ≠ expectedOffsetsLen then
        .error "offsets length mismatch"
      else
        let offsets := chunkMap fromLe 3 payload1
        if ¬ offsetsNonDecreasing offsets then
          .error "offsets must be non-decreasing"
        else
          let finalOff := offsets.getLastD 0
          if U32MOD ≤ payload2.length then .error "data too large"
          else if finalOff ≠ payload2.length then
            .error "final offset mismatch"
          else .ok (ws, .var ty validityBytes offsets payload2)
    else if encIdU16 = ENC_DICT_UTF8 then
      if ty = .bytes then .error "DictUtf8 is not supported for Bytes"
      else
        match decode_dict_utf8_to_var_col ws rowCount validityBytes
            payload1 payload2 with
        | .error e => .error e
        | .ok (ws', offs, dat) => .ok (ws', .var ty validityBytes offs dat)
    else .error "invalid encoding for varlen column"
  | _ =>
    if encIdU16 = ENC_DELTA_VARINT_I64 ∧
        ¬ (ty = .i64 ∨ ty = .timestampTzMicros) then
      .error "invalid encoding for fixed column"
    else
      match (if encIdU16 = ENC_DELTA_VARINT_I64 then .ok ENC_PLAIN
             else if encIdU16 = 0 ∨ encIdU16 = 1 then .ok encIdU16
             else .error "invalid encoding for fixed column" :
             Except String Nat) with
      | .error e => .error e
      | .ok enc =>
        if payload2 ≠ [] then .error "fixed-width payload_2 must be empty"
        else
          match ty with
          | .bool =>
            if payload1.length ≠ rowCount then .error "values length mismatch"
            else .ok (ws, .fixedBool validityBytes payload1)
          | .i16 =>
            if payload1.length ≠ rowCount * 2 then .error "values length mismatch"
            else
              let values := if enc = ENC_PG_BE_FIXED then chunkMap fromBe 1 payload1
                else chunkMap fromLe 1 payload1
              .ok (ws, .fixedI16 validityBytes values)
          | .i32 =>
            if payload1.length ≠ rowCount * 4 then .error "values length mismatch"
            else
              let values := if enc = ENC_PG_BE_FIXED then chunkMap fromBe 3 payload1
                else chunkMap fromLe 3 payload1
              .ok (ws, .fixedI32 validityBytes values)
          | .i64 =>
            if encIdU16 = ENC_DELTA_VARINT_I64 then
              match decode_delta_varint_i64_from_payload payload1 rowCount with
              | .error e => .error e
              | .ok vs => .ok (ws, .fixedI64 validityBytes vs)
            else if payload1.length ≠ rowCount * 8 then
              .error "values length mismatch"
            else
              let values := if enc = ENC_PG_BE_FIXED then chunkMap fromBe 7 payload1
                else chunkMap fromLe 7 payload1
              .ok (ws, .fixedI64 validityBytes values)
          | .f32 =>
            if payload1.length ≠ rowCount * 4 then .error "values length mismatch"
            else
              let values := if enc = ENC_PG_BE_FIXED then chunkMap fromBe 3 payload1
                else chunkMap fromLe 3 payload1
              .ok (ws, .fixedF32Bits validityBytes values)
          | .f64 =>
            if payload1.length ≠ rowCount * 8 then .error "values length mismatch"
            else
              let values := if enc = ENC_PG_BE_FIXED then chunkMap fromBe 7 payload1
                else chunkMap fromLe 7 payload1
              .ok (ws, .fixedF64Bits validityBytes values)
          | .uuid =>
            if payload1.length ≠ rowCount * 16 then .error "values length mismatch"
            else .ok (ws, .fixedUuid validityBytes (chunkMap id 15 payload1))
          | .timestampTzMicros =>
            if encIdU16 = ENC_DELTA_VARINT_I64 then
              match decode_delta_varint_i64_from_payload payload1 rowCount with
              | .error e => .error e
              | .ok vs => .ok (ws, .fixedTimestampMicros validityBytes vs)
            else if payload1.length ≠ rowCount * 8 then
              .error "values length mismatch"
            else
              let values := if enc = ENC_PG_BE_FIXED then chunkMap fromBe 7 payload1
                else chunkMap fromLe 7 payload1
              .ok (ws, .fixedTimestampMicros validityBytes values)
          | .utf8 => .error "invalid fixed type"
          | .bytes => .error "invalid fixed type"
          | .jsonbText => .error "invalid fixed type"

/-- One iteration of the allocating decoder's per-column loop: read a
descriptor (type id, encoding id, flags, name, validity, `payload1`,
`payload2`) and materialize the column.  Returns the updated
workspace, the field, the column and the remaining bytes. -/
def decodeOneColumn (rowCount expectedValidity : Nat)
    (ws : MathldbtV1DecodeWorkspace) (bytes : List Nat) :
    Except String
      (MathldbtV1DecodeWorkspace × ColumnarField × ColumnData × List Nat) :=
  match readU16 bytes with
  | .error e => .error e
  | .ok (tid, r1) =>
    match type_from_id tid with
    | .error e => .error e
    | .ok ty =>
      match readU16 r1 with
      | .error e => .error e
      | .ok (encId, r2) =>
        match readU16 r2 with
        | .error e => .error e
        | .ok (_colFlags, r3) =>
          match readU16 r3 with
          | .error e => .error e
          | .ok (nameLen, r4) =>
            match takeN r4 nameLen with
            | .error e => .error e
            | .ok (nameBytes, r5) =>
              match (if nameLen = 0 then .ok none
                     else if utf8Valid nameBytes then .ok (some nameBytes)
                     else .error "invalid UTF-8 column name" :
                     Except String (Option (List Nat))) with
              | .error e => .error e
              | .ok name =>
                match readU32 r5 with
                | .error e => .error e
                | .ok (validityLen, r6) =>
                  if validityLen ≠ expectedValidity then
                    .error "validity length mismatch"
                  else
                    match takeN r6 validityLen with
                    | .error e => .error e
                    | .ok (validityBytes, r7) =>
                      match readU32 r7 with
                      | .error e => .error e
                      | .ok (p1len, r8) =>
                        match takeN r8 p1len with
                        | .error e => .error e
                        | .ok (p1, r9) =>
                          match readU32 r9 with
                          | .error e => .error e
                          | .ok (p2len, r10) =>
                            match takeN r10 p2len with
                            | .error e => .error e
                            | .ok (p2, r11) =>
                              match decodeColPayload ws rowCount ty encId
                                  validityBytes p1 p2 with
                              | .error e => .error e
                              | .ok (ws', col) =>
                                .ok (ws', ⟨name, ty⟩, col, r11)

/-- Per-column loop of the allocating decoder: read a descriptor,
materialize the column, recurse on the remaining bytes. -/
def decodeColsLoop (rowCount expectedValidity : Nat) :
    Nat → List Nat → MathldbtV1DecodeWorkspace →
    List ColumnarField → List ColumnData →
    Except String (List ColumnarField × List ColumnData)
  | 0, _, _, fieldsRev, colsRev => .ok (fieldsRev.reverse, colsRev.reverse)
  | n + 1, bytes, ws, fieldsRev, colsRev =>
    match decodeOneColumn rowCount expectedValidity ws bytes with
    | .error e => .error e
    | .ok (ws', field, col, r11) =>
      decodeColsLoop rowCount expectedValidity n r11 ws'
        (field :: fieldsRev) (col :: colsRev)

/-- `decode_mathldbt_v1_with_workspace`: header parse, per-column loop,
schema and batch construction.  No end-of-input check is performed
after the last column. -/
def decode_mathldbt_v1_with_workspace (bytes : List Nat)
    (ws : MathldbtV1DecodeWorkspace) : Except String ColumnarBatch :=
  match takeN bytes 8 with
  | .error e => .error e
  | .ok (magic, r1) =>
    if magic ≠ MAGIC then .error "invalid MATHLDBT magic"
    else
      match readU16 r1 with
      | .error e => .error e
      | .ok (version, r2) =>
        if version ≠ VERSION then
          .error ("unsupported MATHLDBT version: " ++ toString version)
        else
          match readU16 r2 with
          | .error e => .error e
          | .ok (_flags, r3) =>
            match readU32 r3 with
            | .error e => .error e
            | .ok (rowCount, r4) =>
              match readU16 r4 with
              | .error e => .error e
              | .ok (colCount, r5) =>
                if colCount = 0 then
                  .error "MATHLDBT must have at least one column"
                else
                  match readU16 r5 with
                  | .error e => .error e
                  | .ok (schemaIdLen, r6) =>
                    match (if 0 < schemaIdLen then takeN r6 schemaIdLen
                           else .ok ([], r6) :
                           Except String (List Nat × List Nat)) with
                    | .error e => .error e
                    | .ok (_, r7) =>
                      let expectedValidity := ceilDiv8 rowCount
                      match decodeColsLoop rowCount expectedValidity colCount
                          r7 ws [] [] with
                      | .error e => .error e
                      | .ok (fields, cols) =>
                        match mkColumnarSchema fields with
                        | .error e => .error e
                        | .ok schema => mkColumnarBatch schema rowCount cols

/-- `decode_mathldbt_v1` (fresh default workspace). -/
def decode_mathldbt_v1 (bytes : List Nat) : Except String ColumnarBatch :=
  decode_mathldbt_v1_with_workspace bytes defaultDecodeWs

/-- Reference zig-zag mapping as the specification writes it:
`n → (n << 1) XOR (n >> 63)` on the i64 bit pattern `u`, where the
arithmetic right shift by 63 yields the all-ones word for negative
inputs.  Kept for comparison against `zigzag_i64_to_u64`. -/
def zigzag_reference (u : Nat) : Nat :=
  ((u <<< 1) % U64MOD) ^^^ (if I64SIGN ≤ u then U64MOD - 1 else 0)

/-- The bit pattern of `-1 : i64`. -/
def negOnePattern : Nat := U64MOD - 1

/-- C4: the claim states `zigzag_i64_to_u64(n) = ((n as u64) << 1) XOR
((n >> 63) as u64)` with `zigzag_u64_to_i64` as its inverse.  The code
masks the shifted sign word with `& 1`, so on `n = -1` it produces the
all-ones word where the reference mapping produces `1`, and the decode
direction (which is the exact inverse of the reference mapping) sends
the encoded value to the bit pattern of `i64::MIN` instead of back to
`-1`. -/
theorem C4_zigzag_code_bug :
    zigzag_i64_to_u64 negOnePattern = U64MOD - 1 ∧
    zigzag_reference negOnePattern = 1 ∧
    zigzag_u64_to_i64 1 = negOnePattern ∧
    zigzag_u64_to_i64 (zigzag_i64_to_u64 negOnePattern) = I64SIGN ∧
    I64SIGN ≠ negOnePattern := by decide

/-- Failing batch for the round-trip claim: one all-valid `I64` column
whose values are `[0, -1, -1, -1]` (as bit patterns), encoded with
`enable_delta_varint_i64` on.  The staged delta payload is
`8 + 10 + 1 + 1 = 20 < 32` bytes, so the delta encoding commits. -/
def c1Batch : ColumnarBatch :=
  ⟨⟨[⟨none, .i64⟩]⟩, 4,
   [.fixedI64 [15] [0, negOnePattern, negOnePattern, negOnePattern]]⟩

def c1Ws : MathldbtV1EncodeWorkspace :=
  { defaultEncodeWs with enable_delta_varint_i64 := true }

/-- What the decoder actually returns for `encode(c1Batch)`: the first
delta decodes to the bit pattern of `i64::MIN` instead of `-1`. -/
def c1Decoded : ColumnarBatch :=
  ⟨⟨[⟨none, .i64⟩]⟩, 4, [.fixedI64 [15] [0, I64SIGN, I64SIGN, I64SIGN]]⟩

/-- C1: the round-trip contract `decode(encode(B, F)) == B` fails on
the code for a valid batch (`c1Batch` passes validation and the encode
succeeds): with the delta-varint flag on, a committed negative delta is
zig-zag encoded with the `& 1` slip (see C4) but decoded with the
standard inverse, so the decoded batch differs from the input. -/
theorem C1_round_trip_code_bug :
    c1Batch.validate = .ok () ∧
    (encode_mathldbt_v1_into_with_workspace c1Batch [] c1Ws).1 = none ∧
    decode_mathldbt_v1
        ((encode_mathldbt_v1_into_with_workspace c1Batch [] c1Ws).2.1) =
      .ok c1Decoded ∧
    c1Decoded ≠ c1Batch := by decide

/-- Hand-crafted frame: `row_count = 0`, one unnamed `I64` column with
encoding id 3 and a one-byte `payload1` — a trailing byte that the
claim says must be rejected. -/
def c8Frame : List Nat :=
  MAGIC ++ [1, 0] ++ [0, 0] ++ [0, 0, 0, 0] ++ [1, 0] ++ [0, 0] ++
  [4, 0] ++ [3, 0] ++ [0, 0] ++ [0, 0] ++ [0, 0, 0, 0] ++ [1, 0, 0, 0] ++
  [0] ++ [0, 0, 0, 0]

/-- C8 counterexample: at `rowCount = 0` the delta decoder returns
before inspecting the payload, so a frame whose encoding-3 `payload1`
is a stray byte decodes successfully instead of failing with
`trailing bytes in delta payload`. -/
theorem C8_counterexample :
    decode_mathldbt_v1 c8Frame = .ok ⟨⟨[⟨none, .i64⟩]⟩, 0, [.fixedI64 [] []]⟩ := by
  decide

/-- C7 counterexample: a 10-byte varint whose final byte is `0x02`
encodes the value `2^64`, which does not fit in 64 bits, yet the
reader returns `Ok(0)` — the high-order bit is silently discarded by
`lo << 63` instead of being rejected with `varint overflow`. -/
theorem C7_counterexample :
    read_u64_varint [128, 128, 128, 128, 128, 128, 128, 128, 128, 2] =
      .ok (0, []) := by decide

/-- Batch that fails validation (`schema/columns length mismatch`):
one field but no columns. -/
def c9BadBatch : ColumnarBatch := ⟨⟨[⟨none, .bool⟩]⟩, 0, []⟩

/-- C9 counterexample: the encoder validates before clearing, so a
call that fails validation returns with the prior buffer contents
(`[42]`) intact — contradicting "the prior contents are discarded even
on calls that return an error". -/
theorem C9_counterexample :
    (encode_mathldbt_v1_into_with_workspace c9BadBatch [42] defaultEncodeWs).1 =
      some "schema/columns length mismatch" ∧
    (encode_mathldbt_v1_into_with_workspace c9BadBatch [42] defaultEncodeWs).2.1 =
      [42] := by decide

/-- C9 amended: the encoder validates first and clears only after
validation succeeds.  On a validation error the call returns the error
with the buffer (and workspace) untouched; once validation has passed,
the entire result is independent of the prior buffer contents. -/
theorem C9_clear_after_validate :
    ∀ (batch : ColumnarBatch) (out out' : List Nat)
      (ws : MathldbtV1EncodeWorkspace),
      (∀ e, batch.validate = .error e →
        encode_mathldbt_v1_into_with_workspace batch out ws = (some e, out, ws)) ∧
      (batch.validate = .ok () →
        encode_mathldbt_v1_into_with_workspace batch out ws =
          encode_mathldbt_v1_into_with_workspace batch out' ws) := by
  intro batch out out' ws
  constructor
  · intro e he
    simp [encode_mathldbt_v1_into_with_workspace, he]
  · intro he
    simp [encode_mathldbt_v1_into_with_workspace, he]

/-- Good batch for the C9 witness. -/
def c9GoodBatch : ColumnarBatch := ⟨⟨[⟨none, .bool⟩]⟩, 0, [.fixedBool [] []]⟩

/-- Witness for C9: the amended theorem applied at concrete inputs. -/
theorem C9_clear_after_validate_witness :
    encode_mathldbt_v1_into_with_workspace c9BadBatch [42] defaultEncodeWs =
      (some "schema/columns length mismatch", [42], defaultEncodeWs) ∧
    encode_mathldbt_v1_into_with_workspace c9GoodBatch [1] defaultEncodeWs =
      encode_mathldbt_v1_into_with_workspace c9GoodBatch [2] defaultEncodeWs :=
  ⟨(C9_clear_after_validate c9BadBatch [42] [] defaultEncodeWs).1 _ (by decide),
   (C9_clear_after_validate c9GoodBatch [1] [2] defaultEncodeWs).2 (by decide)⟩

/-- C5: the encoder selects the delta-varint encoding (id 3) for an
`I64` / `TimestampTzMicros` column (the `tyMatches` argument is the
encoder's `field.ty == ...` guard, true for any validated batch) if
and only if the feature flag is on, every row within `rc` is valid,
`rc ≥ 1`, and the staged payload is strictly smaller than `8 * rc`
bytes; in every other case the column is written with encoding id 0. -/
theorem C5_delta_selection :
    ∀ (ws : MathldbtV1EncodeWorkspace) (validity values : List Nat) (rc : Nat),
      values.length = rc →
      (((select_delta_i64 ws true validity rc values).2.1 = ENC_DELTA_VARINT_I64) ↔
        (ws.enable_delta_varint_i64 = true ∧
         validity_all_valid validity rc = true ∧
         1 ≤ rc ∧ (delta_staged values).length < 8 * rc)) ∧
      ((select_delta_i64 ws true validity rc values).2.1 = ENC_DELTA_VARINT_I64 ∨
       (select_delta_i64 ws true validity rc values).2.1 = ENC_PLAIN) := by
  intro ws validity values rc hlen
  by_cases hf : ws.enable_delta_varint_i64 = true
  · by_cases hv : validity_all_valid validity rc = true
    · match values, hlen with
      | [], hlen =>
        have hsel : (select_delta_i64 ws true validity rc []).2.1 = ENC_PLAIN := by
          simp [select_delta_i64, build_delta_varint_i64_payload, hf, hv]
        rw [hsel]
        refine ⟨⟨fun h => absurd h (by decide), fun hr => ?_⟩, Or.inr rfl⟩
        simp only [List.length_nil] at hlen
        omega
      | v0 :: rest, hlen =>
        simp only [List.length_cons] at hlen
        by_cases hc : 8 * (rest.length + 1) ≤ (delta_staged (v0 :: rest)).length
        · have hsel :
              (select_delta_i64 ws true validity rc (v0 :: rest)).2.1 = ENC_PLAIN := by
            simp [select_delta_i64, build_delta_varint_i64_payload, hf, hv, hc]
          rw [hsel]
          refine ⟨⟨fun h => absurd h (by decide), fun hr => ?_⟩, Or.inr rfl⟩
          omega
        · have hsel :
              (select_delta_i64 ws true validity rc (v0 :: rest)).2.1 =
                ENC_DELTA_VARINT_I64 := by
            simp [select_delta_i64, build_delta_varint_i64_payload, hf, hv, hc]
          rw [hsel]
          exact ⟨⟨fun _ => ⟨hf, hv, by omega, by omega⟩, fun _ => rfl⟩, Or.inl rfl⟩
    · have hsel : (select_delta_i64 ws true validity rc values).2.1 = ENC_PLAIN := by
        simp [select_delta_i64, hv]
      rw [hsel]
      exact ⟨⟨fun h => absurd h (by decide), fun hr => absurd hr.2.1 hv⟩, Or.inr rfl⟩
  · have hsel : (select_delta_i64 ws true validity rc values).2.1 = ENC_PLAIN := by
      simp [select_delta_i64, hf]
    rw [hsel]
    exact ⟨⟨fun h => absurd h (by decide), fun hr => absurd hr.1 hf⟩, Or.inr rfl⟩

def c5Ws : MathldbtV1EncodeWorkspace :=
  { defaultEncodeWs with enable_delta_varint_i64 := true }

/-- Witness for C5: with the flag on, an all-valid 4-row column of
zeros (staged payload 11 < 32 bytes) selects encoding 3. -/
theorem C5_delta_selection_witness :
    (select_delta_i64 c5Ws true [15] 4 [0, 0, 0, 0]).2.1 = ENC_DELTA_VARINT_I64 :=
  (C5_delta_selection c5Ws [15] [0, 0, 0, 0] 4 (by decide)).1.mpr
    ⟨by decide, by decide, by decide, by decide⟩

/-- C6: the committed non-plain payloads are strictly smaller than the
plain payloads they replace.  The dictionary builder commits only when
`|indices_bytes| + |dict_blob| < 4 * (rowCount + 1) + |data|`, and the
delta builder commits only when the staged buffer is strictly smaller
than `8 * |values|`. -/
theorem C6_commit_size :
    (∀ (ws ws' : MathldbtV1EncodeWorkspace)
       (validity offsets data idx blob : List Nat) (rc : Nat),
      build_dict_utf8_payload ws validity rc offsets data =
        .ok (ws', some (idx, blob)) →
      idx.length + blob.length < (rc + 1) * 4 + data.length) ∧
    (∀ (ws ws' : MathldbtV1EncodeWorkspace) (values p : List Nat),
      build_delta_varint_i64_payload ws values = (ws', some p) →
      p.length < 8 * values.length) := by
  constructor
  · intro ws ws' validity offsets data idx blob rc h
    simp only [build_dict_utf8_payload] at h
    repeat' split at h
    all_goals
      simp only [Except.ok.injEq, Prod.mk.injEq, Option.some.injEq,
        reduceCtorEq, and_false, false_and, and_true, true_and] at h
    all_goals obtain ⟨-, hidx, hblob⟩ := h
    all_goals subst hidx
    all_goals subst hblob
    all_goals
      try simp only [List.length_cons, List.length_append] at *
    all_goals omega
  · intro ws ws' values p h
    match values, h with
    | [], h => simp [build_delta_varint_i64_payload] at h
    | v0 :: rest, h =>
      simp only [build_delta_varint_i64_payload] at h
      split at h
      · simp at h
      · rename_i hnotle
        simp only [Prod.mk.injEq, Option.some.injEq] at h
        obtain ⟨-, hp⟩ := h
        subst hp
        simp only [List.length_cons]
        omega

/-- Workspace state after the witness dictionary build. -/
def c6DictWs : MathldbtV1EncodeWorkspace :=
  { defaultEncodeWs with
    dict_values := [[97, 97, 97, 97]],
    dict_indices := [0, 0, 0, 0, 0, 0, 0, 0],
    dict_indices_bytes := [0, 0, 0, 0, 0, 0, 0, 0],
    dict_offsets := [0, 4],
    dict_blob := [1, 1, 0, 0, 0, 0, 0, 0, 0, 4, 0, 0, 0, 97, 97, 97, 97] }

/-- Witness for C6: both size bounds at concrete committed payloads
(8 identical 4-byte strings for the dictionary; 3 zero values for the
delta). -/
theorem C6_commit_size_witness :
    (([0, 0, 0, 0, 0, 0, 0, 0] : List Nat).length +
      ([1, 1, 0, 0, 0, 0, 0, 0, 0, 4, 0, 0, 0, 97, 97, 97, 97] : List Nat).length <
      (8 + 1) * 4 + (List.replicate 32 97 : List Nat).length) ∧
    (([0, 0, 0, 0, 0, 0, 0, 0, 0, 0] : List Nat).length <
      8 * ([0, 0, 0] : List Nat).length) :=
  ⟨C6_commit_size.1 defaultEncodeWs c6DictWs [255] [0, 4, 8, 12, 16, 20, 24, 28, 32]
      (List.replicate 32 97) [0, 0, 0, 0, 0, 0, 0, 0]
      [1, 1, 0, 0, 0, 0, 0, 0, 0, 4, 0, 0, 0, 97, 97, 97, 97] 8 (by decide),
   C6_commit_size.2 defaultEncodeWs
      { defaultEncodeWs with delta_buf := [0, 0, 0, 0, 0, 0, 0, 0, 0, 0] }
      [0, 0, 0] [0, 0, 0, 0, 0, 0, 0, 0, 0, 0] (by decide)⟩

/-- `U64MOD` is `2 ^ 64`. -/
theorem U64MOD_eq_pow : U64MOD = 2 ^ 64 := by norm_num [U64MOD]

/-- The varint accumulator stays below `2^64`: every or-ed contribution
is reduced mod `2^64`. -/
theorem readVarintAux_lt (l : List Nat) :
    ∀ shift acc v r, acc < U64MOD → readVarintAux l shift acc = .ok (v, r) →
      v < U64MOD := by
  induction l with
  | nil => intro shift acc v r _ h; simp [readVarintAux] at h
  | cons b rest ih =>
    intro shift acc v r hacc h
    simp only [readVarintAux] at h
    split at h
    · simp at h
    · have hacc' : (acc ||| ((b &&& 127) <<< shift % U64MOD)) < U64MOD := by
        rw [U64MOD_eq_pow] at hacc ⊢
        exact Nat.or_lt_two_pow hacc
          (Nat.mod_lt _ (by rw [← U64MOD_eq_pow]; norm_num [U64MOD]))
      split at h
      · simp only [Except.ok.injEq, Prod.mk.injEq] at h
        omega
      · exact ih _ _ _ _ hacc' h

/-- Reading a run of continuation bytes that ends before the shift can
reach 64 runs off the end of the input: `truncated varint`. -/
theorem readVarintAux_truncated (l : List Nat) :
    ∀ shift acc, (∀ b ∈ l, b &&& 128 ≠ 0) → shift + 7 * l.length ≤ 70 →
      readVarintAux l shift acc = .error "truncated varint" := by
  induction l with
  | nil => intro shift acc _ _; rfl
  | cons b rest ih =>
    intro shift acc hcont hlen
    have hb : b &&& 128 ≠ 0 := hcont b (by simp)
    simp only [List.length_cons] at hlen
    simp only [readVarintAux]
    rw [if_neg (by omega), if_neg hb]
    exact ih _ _ (fun x hx => hcont x (by simp [hx])) (by omega)

/-- Once the shift has reached 64 with input remaining, the reader
fails with `varint overflow` on the next byte. -/
theorem readVarintAux_overflow (n : Nat) :
    ∀ (l : List Nat) shift acc,
      (∀ i, i < n → (l.getD i 0) &&& 128 ≠ 0) → n < l.length →
      (∀ i, i < n → shift + 7 * i < 64) → 64 ≤ shift + 7 * n →
      readVarintAux l shift acc = .error "varint overflow" := by
  induction n with
  | zero =>
    intro l shift acc _ hlen _ hge
    match l, hlen with
    | b :: rest, _ =>
      simp only [readVarintAux]
      rw [if_pos (by omega)]
  | succ n ih =>
    intro l shift acc hcont hlen hlt hge
    match l, hlen with
    | b :: rest, hlen =>
      have hb : b &&& 128 ≠ 0 := by
        have := hcont 0 (by omega)
        rwa [List.getD_cons_zero] at this
      have hs : shift < 64 := by
        have := hlt 0 (by omega)
        omega
      simp only [readVarintAux]
      rw [if_neg (by omega), if_neg hb]
      refine ih rest (shift + 7) _ ?_ ?_ ?_ ?_
      · intro i hi
        have := hcont (i + 1) (by omega)
        rwa [List.getD_cons_succ] at this
      · simp only [List.length_cons] at hlen
        omega
      · intro i hi
        have := hlt (i + 1) (by omega)
        omega
      · omega

/-- C7 amended: the reader rejects truncation with `truncated varint`
and a continuation chain reaching an 11th byte with `varint overflow`;
any accepted value has already been reduced below `2^64`, i.e. bits
above bit 63 of a 10-byte varint are silently discarded rather than
rejected. -/
theorem C7_varint_amended :
    (∀ (l : List Nat) v r, read_u64_varint l = .ok (v, r) → v < U64MOD) ∧
    (∀ l : List Nat, (∀ b ∈ l, b &&& 128 ≠ 0) → l.length ≤ 10 →
      read_u64_varint l = .error "truncated varint") ∧
    (∀ l : List Nat, (∀ i, i < 10 → (l.getD i 0) &&& 128 ≠ 0) →
      11 ≤ l.length → read_u64_varint l = .error "varint overflow") := by
  refine ⟨?_, ?_, ?_⟩
  · intro l v r h
    exact readVarintAux_lt l 0 0 v r (by norm_num [U64MOD]) h
  · intro l hcont hlen
    exact readVarintAux_truncated l 0 0 hcont (by omega)
  · intro l hcont hlen
    exact readVarintAux_overflow 10 l 0 0 hcont (by omega)
      (fun i hi => by omega) (by omega)

/-- Witness for C7's amended claim at concrete inputs: an accepted
varint value is in range, a lone continuation byte is truncated, and an
11-byte continuation chain overflows. -/
theorem C7_varint_amended_witness :
    (5 : Nat) < U64MOD ∧
    read_u64_varint [128] = .error "truncated varint" ∧
    read_u64_varint [128, 128, 128, 128, 128, 128, 128, 128, 128, 128, 0] =
      .error "varint overflow" :=
  ⟨C7_varint_amended.1 [5] 5 [] (by decide),
   C7_varint_amended.2.1 [128] (by decide) (by decide),
   C7_varint_amended.2.2 [128, 128, 128, 128, 128, 128, 128, 128, 128, 128, 0]
     (by decide) (by decide)⟩

/-- Reading from an extended input cannot change a successful varint
parse: the leftover suffix is appended to the remainder. -/
theorem readVarintAux_append (l : List Nat) :
    ∀ shift acc v r (e : List Nat),
      readVarintAux l shift acc = .ok (v, r) →
      readVarintAux (l ++ e) shift acc = .ok (v, r ++ e) := by
  induction l with
  | nil => intro shift acc v r e h; simp [readVarintAux] at h
  | cons b rest ih =>
    intro shift acc v r e h
    simp only [readVarintAux, List.cons_append] at h ⊢
    split at h
    · simp at h
    · rename_i hs
      rw [if_neg hs]
      split at h
      · rename_i hb
        rw [if_pos hb]
        simp only [Except.ok.injEq, Prod.mk.injEq] at h ⊢
        exact ⟨h.1, by rw [← h.2]; rfl⟩
      · rename_i hb
        rw [if_neg hb]
        exact ih _ _ _ _ _ h

/-- `read_u64_varint` version of `readVarintAux_append`. -/
theorem read_u64_varint_append (l : List Nat) (v : Nat) (r e : List Nat)
    (h : read_u64_varint l = .ok (v, r)) :
    read_u64_varint (l ++ e) = .ok (v, r ++ e) :=
  readVarintAux_append l 0 0 v r e h

/-- A successful delta parse consumes the whole payload, so appending
any nonempty suffix turns it into `trailing bytes in delta payload`. -/
theorem deltaDecodeGo_append_trailing (k : Nat) :
    ∀ (r : List Nat) prev vs (e : List Nat),
      deltaDecodeGo r prev k = .ok vs → e ≠ [] →
      deltaDecodeGo (r ++ e) prev k =
        .error "trailing bytes in delta payload" := by
  induction k with
  | zero =>
    intro r prev vs e h he
    simp only [deltaDecodeGo] at h ⊢
    split at h
    · rename_i hr
      rw [List.isEmpty_iff] at hr
      subst hr
      simp only [List.nil_append]
      rw [if_neg (by simpa [List.isEmpty_iff] using he)]
    · simp at h
  | succ k ih =>
    intro r prev vs e h he
    simp only [deltaDecodeGo] at h ⊢
    cases hv : read_u64_varint r with
    | error err => rw [hv] at h; simp at h
    | ok p =>
      obtain ⟨zz, r'⟩ := p
      rw [hv] at h
      rw [read_u64_varint_append r zz r' e hv]
      simp only at h ⊢
      cases hg : deltaDecodeGo r' (wadd64 prev (zigzag_u64_to_i64 zz)) k with
      | error err => rw [hg] at h; simp at h
      | ok vs' =>
        rw [ih r' _ vs' e hg he]

/-- C8 amended: for `rowCount ≥ 1` a stray byte after the base and the
`rowCount − 1` varints fails with `trailing bytes in delta payload`;
for `rowCount = 0` the payload is not inspected at all, so trailing
bytes are silently accepted. -/
theorem C8_delta_trailing_amended :
    (∀ (payload : List Nat) (rc : Nat) (vs extra : List Nat),
      1 ≤ rc →
      decode_delta_varint_i64_from_payload payload rc = .ok vs →
      extra ≠ [] →
      decode_delta_varint_i64_from_payload (payload ++ extra) rc =
        .error "trailing bytes in delta payload") ∧
    (∀ payload : List Nat,
      decode_delta_varint_i64_from_payload payload 0 = .ok []) := by
  constructor
  · intro payload rc vs extra hrc h he
    simp only [decode_delta_varint_i64_from_payload] at h ⊢
    rw [if_neg (by omega)] at h ⊢
    split at h
    · simp at h
    · rename_i hlen
      push_neg at hlen
      rw [if_neg (by simp; omega)]
      rw [List.take_append_of_le_length hlen,
        List.drop_append_of_le_length hlen]
      cases hg : deltaDecodeGo (payload.drop 8) (fromLe (payload.take 8))
          (rc - 1) with
      | error err => rw [hg] at h; simp at h
      | ok vs' =>
        rw [deltaDecodeGo_append_trailing (rc - 1) _ _ vs' extra hg he]
  · intro payload
    simp [decode_delta_varint_i64_from_payload]

/-- Witness for C8's amended claim: an 8-byte base with one stray byte
at `rowCount = 1` is rejected, and at `rowCount = 0` a stray payload
byte is accepted. -/
theorem C8_delta_trailing_amended_witness :
    decode_delta_varint_i64_from_payload [0, 0, 0, 0, 0, 0, 0, 0, 7] 1 =
      .error "trailing bytes in delta payload" ∧
    decode_delta_varint_i64_from_payload [5] 0 = .ok [] :=
  ⟨C8_delta_trailing_amended.1 [0, 0, 0, 0, 0, 0, 0, 0] 1 [0] [7]
      (by decide) (by decide) (by decide),
   C8_delta_trailing_amended.2 [5]⟩

/-- The staged-delta result does not depend on the workspace scratch
state (the staging buffer is cleared before use). -/
theorem build_delta_snd (ws ws' : MathldbtV1EncodeWorkspace) (v : List Nat) :
    (build_delta_varint_i64_payload ws v).2 =
      (build_delta_varint_i64_payload ws' v).2 := by
  cases v with
  | nil => rfl
  | cons v0 rest =>
    simp only [build_delta_varint_i64_payload]
    split <;> rfl

/-- The delta builder only writes scratch fields: the feature flags of
the returned workspace are unchanged. -/
theorem build_delta_flags (ws : MathldbtV1EncodeWorkspace) (v : List Nat) :
    (build_delta_varint_i64_payload ws v).1.enable_dict_utf8 =
      ws.enable_dict_utf8 ∧
    (build_delta_varint_i64_payload ws v).1.enable_delta_varint_i64 =
      ws.enable_delta_varint_i64 := by
  cases v with
  | nil => exact ⟨rfl, rfl⟩
  | cons v0 rest =>
    simp only [build_delta_varint_i64_payload]
    split <;> exact ⟨rfl, rfl⟩

/-- Result projection of the dictionary builder (drops the returned
workspace). -/
def exSnd :
    Except String (MathldbtV1EncodeWorkspace × Option (List Nat × List Nat)) →
      Except String (Option (List Nat × List Nat))
  | .error e => .error e
  | .ok (_, o) => .ok o

set_option maxHeartbeats 2000000 in
/-- The dictionary payload result does not depend on the workspace
scratch state (every scratch buffer is cleared before use). -/
theorem build_dict_exSnd (ws ws' : MathldbtV1EncodeWorkspace)
    (validity : List Nat) (rc : Nat) (offsets data : List Nat) :
    exSnd (build_dict_utf8_payload ws validity rc offsets data) =
      exSnd (build_dict_utf8_payload ws' validity rc offsets data) := by
  simp only [build_dict_utf8_payload]
  repeat' split
  all_goals rfl

/-- The dictionary builder preserves the feature flags. -/
theorem build_dict_flags (ws ws' : MathldbtV1EncodeWorkspace)
    (validity : List Nat) (rc : Nat) (offsets data : List Nat)
    (o : Option (List Nat × List Nat))
    (h : build_dict_utf8_payload ws validity rc offsets data = .ok (ws', o)) :
    ws'.enable_dict_utf8 = ws.enable_dict_utf8 ∧
    ws'.enable_delta_varint_i64 = ws.enable_delta_varint_i64 := by
  simp only [build_dict_utf8_payload] at h
  repeat' split at h
  all_goals
    simp only [Except.ok.injEq, Prod.mk.injEq, reduceCtorEq, and_false,
      false_and] at h
  all_goals obtain ⟨hws, -⟩ := h
  all_goals subst hws
  all_goals exact ⟨rfl, rfl⟩

/-- Selection outcome of `select_delta_i64` depends only on the
delta feature flag and the arguments, not on workspace scratch. -/
theorem select_delta_snd (ws1 ws2 : MathldbtV1EncodeWorkspace) (t : Bool)
    (validity : List Nat) (rc : Nat) (v : List Nat)
    (he : ws1.enable_delta_varint_i64 = ws2.enable_delta_varint_i64) :
    (select_delta_i64 ws1 t validity rc v).2 =
      (select_delta_i64 ws2 t validity rc v).2 := by
  simp only [select_delta_i64, he]
  split
  · have hsnd := build_delta_snd ws1 ws2 v
    rcases h1 : build_delta_varint_i64_payload ws1 v with ⟨ws1', o1⟩
    rcases h2 : build_delta_varint_i64_payload ws2 v with ⟨ws2', o2⟩
    rw [h1, h2] at hsnd
    obtain rfl : o1 = o2 := hsnd
    cases o1 <;> rfl
  · rfl

/-- `select_delta_i64` preserves the feature flags. -/
theorem select_delta_flags (ws : MathldbtV1EncodeWorkspace) (t : Bool)
    (validity : List Nat) (rc : Nat) (v : List Nat) :
    (select_delta_i64 ws t validity rc v).1.enable_dict_utf8 =
      ws.enable_dict_utf8 ∧
    (select_delta_i64 ws t validity rc v).1.enable_delta_varint_i64 =
      ws.enable_delta_varint_i64 := by
  simp only [select_delta_i64]
  split
  · have hf := build_delta_flags ws v
    rcases h1 : build_delta_varint_i64_payload ws v with ⟨ws', o⟩
    rw [h1] at hf
    cases o <;> exact hf
  · exact ⟨rfl, rfl⟩

/-- Selection outcome of `select_dict_var` depends only on the dict
feature flag and the arguments, not on workspace scratch. -/
theorem select_dict_snd (ws1 ws2 : MathldbtV1EncodeWorkspace)
    (ty : ColumnarType) (validity : List Nat) (rc : Nat)
    (offsets data : List Nat)
    (hd : ws1.enable_dict_utf8 = ws2.enable_dict_utf8) :
    (select_dict_var ws1 ty validity rc offsets data).2 =
      (select_dict_var ws2 ty validity rc offsets data).2 := by
  simp only [select_dict_var, hd]
  split
  · have hsnd := build_dict_exSnd ws1 ws2 validity rc offsets data
    cases h1 : build_dict_utf8_payload ws1 validity rc offsets data with
    | error e1 =>
      cases h2 : build_dict_utf8_payload ws2 validity rc offsets data with
      | error e2 =>
        rw [h1, h2] at hsnd
        simp only [exSnd, Except.error.injEq] at hsnd
        subst hsnd
        rfl
      | ok p2 =>
        obtain ⟨ws2', o2⟩ := p2
        rw [h1, h2] at hsnd
        simp [exSnd] at hsnd
    | ok p1 =>
      obtain ⟨ws1', o1⟩ := p1
      cases h2 : build_dict_utf8_payload ws2 validity rc offsets data with
      | error e2 =>
        rw [h1, h2] at hsnd
        simp [exSnd] at hsnd
      | ok p2 =>
        obtain ⟨ws2', o2⟩ := p2
        rw [h1, h2] at hsnd
        simp only [exSnd, Except.ok.injEq] at hsnd
        obtain rfl : o1 = o2 := hsnd
        cases o1 with
        | none => rfl
        | some p => rfl
  · rfl

/-- `select_dict_var` preserves the feature flags. -/
theorem select_dict_flags (ws : MathldbtV1EncodeWorkspace)
    (ty : ColumnarType) (validity : List Nat) (rc : Nat)
    (offsets data : List Nat) :
    (select_dict_var ws ty validity rc offsets data).1.enable_dict_utf8 =
      ws.enable_dict_utf8 ∧
    (select_dict_var ws ty validity rc offsets data).1.enable_delta_varint_i64 =
      ws.enable_delta_varint_i64 := by
  simp only [select_dict_var]
  split
  · cases h1 : build_dict_utf8_payload ws validity rc offsets data with
    | error e => exact ⟨rfl, rfl⟩
    | ok p =>
      obtain ⟨ws', o⟩ := p
      have hf := build_dict_flags ws ws' validity rc offsets data o h1
      cases o with
      | none => exact hf
      | some q => exact hf
  · exact ⟨rfl, rfl⟩

/-- The externally visible part of an encoder step: the error and the
buffer, without the workspace. -/
def encOut (r : Option String × List Nat × MathldbtV1EncodeWorkspace) :
    Option String × List Nat := (r.1, r.2.1)

/-- One encoder column step produces the same error and bytes for any
two workspaces that agree on the feature flags. -/
theorem encodeColumnB_out (ws1 ws2 : MathldbtV1EncodeWorkspace) (rc : Nat)
    (f : ColumnarField) (c : ColumnData)
    (hd : ws1.enable_dict_utf8 = ws2.enable_dict_utf8)
    (he : ws1.enable_delta_varint_i64 = ws2.enable_delta_varint_i64) :
    encOut (encodeColumnB ws1 rc f c) = encOut (encodeColumnB ws2 rc f c) := by
  cases c with
  | fixedI64 validity values =>
    simp only [encodeColumnB, ColumnData.validityBytes]
    split
    · rfl
    · have hsnd := select_delta_snd ws1 ws2 (f.ty == ColumnarType.i64)
        validity rc values he
      rcases h1 : select_delta_i64 ws1 (f.ty == ColumnarType.i64) validity rc
        values with ⟨ws1', s1⟩
      rcases h2 : select_delta_i64 ws2 (f.ty == ColumnarType.i64) validity rc
        values with ⟨ws2', s2⟩
      rw [h1, h2] at hsnd
      obtain rfl : s1 = s2 := hsnd
      rcases s1 with ⟨encId, dp⟩
      dsimp only
      repeat' split
      all_goals rfl
  | fixedTimestampMicros validity values =>
    simp only [encodeColumnB, ColumnData.validityBytes]
    split
    · rfl
    · have hsnd := select_delta_snd ws1 ws2
        (f.ty == ColumnarType.timestampTzMicros) validity rc values he
      rcases h1 : select_delta_i64 ws1 (f.ty == ColumnarType.timestampTzMicros)
        validity rc values with ⟨ws1', s1⟩
      rcases h2 : select_delta_i64 ws2 (f.ty == ColumnarType.timestampTzMicros)
        validity rc values with ⟨ws2', s2⟩
      rw [h1, h2] at hsnd
      obtain rfl : s1 = s2 := hsnd
      rcases s1 with ⟨encId, dp⟩
      dsimp only
      repeat' split
      all_goals rfl
  | var ty validity offsets data =>
    simp only [encodeColumnB, ColumnData.validityBytes]
    split
    · rfl
    · have hsnd := select_dict_snd ws1 ws2 ty validity rc offsets data hd
      rcases h1 : select_dict_var ws1 ty validity rc offsets data with ⟨ws1', s1⟩
      rcases h2 : select_dict_var ws2 ty validity rc offsets data with ⟨ws2', s2⟩
      rw [h1, h2] at hsnd
      obtain rfl : s1 = s2 := hsnd
      cases s1 with
      | error e => rfl
      | ok q =>
        obtain ⟨encId, dp⟩ := q
        dsimp only
        repeat' split
        all_goals rfl
  | fixedBool validity values =>
    simp only [encodeColumnB, ColumnData.validityBytes]
    repeat' split
    all_goals rfl
  | fixedI16 validity values =>
    simp only [encodeColumnB, ColumnData.validityBytes]
    repeat' split
    all_goals rfl
  | fixedI32 validity values =>
    simp only [encodeColumnB, ColumnData.validityBytes]
    repeat' split
    all_goals rfl
  | fixedF32Bits validity values =>
    simp only [encodeColumnB, ColumnData.validityBytes]
    repeat' split
    all_goals rfl
  | fixedF64Bits validity values =>
    simp only [encodeColumnB, ColumnData.validityBytes]
    repeat' split
    all_goals rfl
  | fixedUuid validity values =>
    simp only [encodeColumnB, ColumnData.validityBytes]
    repeat' split
    all_goals rfl

/-- One encoder column step preserves the feature flags. -/
theorem encodeColumnB_flags (ws : MathldbtV1EncodeWorkspace) (rc : Nat)
    (f : ColumnarField) (c : ColumnData) :
    (encodeColumnB ws rc f c).2.2.enable_dict_utf8 = ws.enable_dict_utf8 ∧
    (encodeColumnB ws rc f c).2.2.enable_delta_varint_i64 =
      ws.enable_delta_varint_i64 := by
  cases c with
  | fixedI64 validity values =>
    simp only [encodeColumnB, ColumnData.validityBytes]
    split
    · exact ⟨rfl, rfl⟩
    · have hf := select_delta_flags ws (f.ty == ColumnarType.i64) validity rc values
      rcases h1 : select_delta_i64 ws (f.ty == ColumnarType.i64) validity rc
        values with ⟨ws', s⟩
      rw [h1] at hf
      rcases s with ⟨encId, dp⟩
      dsimp only
      repeat' split
      all_goals exact hf
  | fixedTimestampMicros validity values =>
    simp only [encodeColumnB, ColumnData.validityBytes]
    split
    · exact ⟨rfl, rfl⟩
    · have hf := select_delta_flags ws (f.ty == ColumnarType.timestampTzMicros)
        validity rc values
      rcases h1 : select_delta_i64 ws (f.ty == ColumnarType.timestampTzMicros)
        validity rc values with ⟨ws', s⟩
      rw [h1] at hf
      rcases s with ⟨encId, dp⟩
      dsimp only
      repeat' split
      all_goals exact hf
  | var ty validity offsets data =>
    simp only [encodeColumnB, ColumnData.validityBytes]
    split
    · exact ⟨rfl, rfl⟩
    · have hf := select_dict_flags ws ty validity rc offsets data
      rcases h1 : select_dict_var ws ty validity rc offsets data with ⟨ws', s⟩
      rw [h1] at hf
      cases s with
      | error e => exact hf
      | ok q =>
        obtain ⟨encId, dp⟩ := q
        dsimp only
        repeat' split
        all_goals exact hf
  | fixedBool validity values =>
    simp only [encodeColumnB, ColumnData.validityBytes]
    repeat' split
    all_goals exact ⟨rfl, rfl⟩
  | fixedI16 validity values =>
    simp only [encodeColumnB, ColumnData.validityBytes]
    repeat' split
    all_goals exact ⟨rfl, rfl⟩
  | fixedI32 validity values =>
    simp only [encodeColumnB, ColumnData.validityBytes]
    repeat' split
    all_goals exact ⟨rfl, rfl⟩
  | fixedF32Bits validity values =>
    simp only [encodeColumnB, ColumnData.validityBytes]
    repeat' split
    all_goals exact ⟨rfl, rfl⟩
  | fixedF64Bits validity values =>
    simp only [encodeColumnB, ColumnData.validityBytes]
    repeat' split
    all_goals exact ⟨rfl, rfl⟩
  | fixedUuid validity values =>
    simp only [encodeColumnB, ColumnData.validityBytes]
    repeat' split
    all_goals exact ⟨rfl, rfl⟩

/-- The per-column loop produces the same error and bytes for any two
workspaces that agree on the feature flags. -/
theorem encColsB_out (rc : Nat) (pairs : List (ColumnarField × ColumnData)) :
    ∀ (acc : List Nat) (ws1 ws2 : MathldbtV1EncodeWorkspace),
      ws1.enable_dict_utf8 = ws2.enable_dict_utf8 →
      ws1.enable_delta_varint_i64 = ws2.enable_delta_varint_i64 →
      encOut (encColsB rc pairs acc ws1) =
        encOut (encColsB rc pairs acc ws2) := by
  induction pairs with
  | nil => intro acc ws1 ws2 _ _; rfl
  | cons p rest ih =>
    intro acc ws1 ws2 hd he
    obtain ⟨f, c⟩ := p
    have hout := encodeColumnB_out ws1 ws2 rc f c hd he
    have hf1 := encodeColumnB_flags ws1 rc f c
    have hf2 := encodeColumnB_flags ws2 rc f c
    simp only [encColsB]
    rcases h1 : encodeColumnB ws1 rc f c with ⟨e1, b1, ws1'⟩
    rcases h2 : encodeColumnB ws2 rc f c with ⟨e2, b2, ws2'⟩
    rw [h1] at hout hf1
    rw [h2] at hout hf2
    simp only [encOut, Prod.mk.injEq] at hout
    obtain ⟨rfl, rfl⟩ := hout
    dsimp only at hf1 hf2
    cases e1 with
    | some e => rfl
    | none =>
      exact ih (acc ++ b1) ws1' ws2' (by rw [hf1.1, hf2.1, hd])
        (by rw [hf1.2, hf2.2, he])

/-- The per-column loop preserves the feature flags. -/
theorem encColsB_flags (rc : Nat) (pairs : List (ColumnarField × ColumnData)) :
    ∀ (acc : List Nat) (ws : MathldbtV1EncodeWorkspace),
      (encColsB rc pairs acc ws).2.2.enable_dict_utf8 = ws.enable_dict_utf8 ∧
      (encColsB rc pairs acc ws).2.2.enable_delta_varint_i64 =
        ws.enable_delta_varint_i64 := by
  induction pairs with
  | nil => intro acc ws; exact ⟨rfl, rfl⟩
  | cons p rest ih =>
    intro acc ws
    obtain ⟨f, c⟩ := p
    have hf := encodeColumnB_flags ws rc f c
    simp only [encColsB]
    rcases h1 : encodeColumnB ws rc f c with ⟨e1, b1, ws'⟩
    rw [h1] at hf
    dsimp only at hf
    cases e1 with
    | some e => exact hf
    | none =>
      have := ih (acc ++ b1) ws'
      exact ⟨by rw [this.1, hf.1], by rw [this.2, hf.2]⟩

/-- The encoder core produces the same error and bytes for any two
workspaces that agree on the feature flags. -/
theorem encodeCoreB_out (batch : ColumnarBatch)
    (ws1 ws2 : MathldbtV1EncodeWorkspace)
    (hd : ws1.enable_dict_utf8 = ws2.enable_dict_utf8)
    (he : ws1.enable_delta_varint_i64 = ws2.enable_delta_varint_i64) :
    encOut (encodeCoreB batch ws1) = encOut (encodeCoreB batch ws2) := by
  simp only [encodeCoreB]
  repeat' split
  all_goals first
    | rfl
    | exact encColsB_out batch.rowCount (batch.schema.fields.zip batch.columns)
        _ ws1 ws2 hd he

/-- The encoder core preserves the feature flags. -/
theorem encodeCoreB_flags (batch : ColumnarBatch)
    (ws : MathldbtV1EncodeWorkspace) :
    (encodeCoreB batch ws).2.2.enable_dict_utf8 = ws.enable_dict_utf8 ∧
    (encodeCoreB batch ws).2.2.enable_delta_varint_i64 =
      ws.enable_delta_varint_i64 := by
  simp only [encodeCoreB]
  repeat' split
  all_goals first
    | exact ⟨rfl, rfl⟩
    | exact encColsB_flags batch.rowCount (batch.schema.fields.zip batch.columns)
        _ ws

/-- C2: encoding is deterministic and independent of workspace scratch
state.  Two workspaces that agree on the two feature flags yield the
same error result and byte-identical buffers, and a call leaves the
flags unchanged (so repeated calls reusing one workspace also produce
byte-identical output). -/
theorem C2_encode_determinism :
    ∀ (batch : ColumnarBatch) (out : List Nat)
      (ws1 ws2 : MathldbtV1EncodeWorkspace),
      ws1.enable_dict_utf8 = ws2.enable_dict_utf8 →
      ws1.enable_delta_varint_i64 = ws2.enable_delta_varint_i64 →
      ((encode_mathldbt_v1_into_with_workspace batch out ws1).1 =
         (encode_mathldbt_v1_into_with_workspace batch out ws2).1 ∧
       (encode_mathldbt_v1_into_with_workspace batch out ws1).2.1 =
         (encode_mathldbt_v1_into_with_workspace batch out ws2).2.1) ∧
      ((encode_mathldbt_v1_into_with_workspace batch out ws1).2.2.enable_dict_utf8 =
         ws1.enable_dict_utf8 ∧
       (encode_mathldbt_v1_into_with_workspace batch out ws1).2.2.enable_delta_varint_i64 =
         ws1.enable_delta_varint_i64) := by
  intro batch out ws1 ws2 hd he
  simp only [encode_mathldbt_v1_into_with_workspace]
  cases hv : batch.validate with
  | error e => exact ⟨⟨rfl, rfl⟩, rfl, rfl⟩
  | ok u =>
    cases u
    dsimp only
    have hout := encodeCoreB_out batch ws1 ws2 hd he
    have hfl := encodeCoreB_flags batch ws1
    refine ⟨⟨?_, ?_⟩, hfl⟩
    · have := congrArg Prod.fst hout
      simpa [encOut] using this
    · have := congrArg Prod.snd hout
      simpa [encOut] using this

/-- Concrete batch and scratch-differing workspaces for the C2 witness. -/
def c2Batch : ColumnarBatch :=
  ⟨⟨[⟨some [112], .utf8⟩, ⟨none, .i64⟩]⟩, 2,
   [.var .utf8 [3] [0, 1, 2] [97, 98], .fixedI64 [3] [5, 6]]⟩

def c2Ws1 : MathldbtV1EncodeWorkspace :=
  { defaultEncodeWs with
    enable_dict_utf8 := true,
    enable_delta_varint_i64 := true,
    delta_buf := [9, 9, 9] }

def c2Ws2 : MathldbtV1EncodeWorkspace :=
  { defaultEncodeWs with
    enable_dict_utf8 := true,
    enable_delta_varint_i64 := true,
    dict_blob := [1, 2, 3],
    view_var_coalesce := [7] }

/-- Witness for C2 at a concrete batch and two workspaces with
differing scratch contents. -/
theorem C2_encode_determinism_witness :
    ((encode_mathldbt_v1_into_with_workspace c2Batch [] c2Ws1).1 =
       (encode_mathldbt_v1_into_with_workspace c2Batch [] c2Ws2).1 ∧
     (encode_mathldbt_v1_into_with_workspace c2Batch [] c2Ws1).2.1 =
       (encode_mathldbt_v1_into_with_workspace c2Batch [] c2Ws2).2.1) ∧
    ((encode_mathldbt_v1_into_with_workspace c2Batch [] c2Ws1).2.2.enable_dict_utf8 =
       c2Ws1.enable_dict_utf8 ∧
     (encode_mathldbt_v1_into_with_workspace c2Batch [] c2Ws1).2.2.enable_delta_varint_i64 =
       c2Ws1.enable_delta_varint_i64) :=
  C2_encode_determinism c2Batch [] c2Ws1 c2Ws2 (by decide) (by decide)

/-- A successful `take` is unaffected by appending a suffix. -/
theorem takeN_append (l s : List Nat) (n : Nat) (c r : List Nat)
    (h : takeN l n = .ok (c, r)) : takeN (l ++ s) n = .ok (c, r ++ s) := by
  simp only [takeN] at h ⊢
  split at h
  · rename_i hle
    simp only [Except.ok.injEq, Prod.mk.injEq] at h
    obtain ⟨rfl, rfl⟩ := h
    rw [if_pos (by simp only [List.length_append]; omega)]
    rw [List.take_append_of_le_length hle, List.drop_append_of_le_length hle]
  · simp at h

/-- A successful `read_u16_le` is unaffected by appending a suffix. -/
theorem readU16_append (l s : List Nat) (v : Nat) (r : List Nat)
    (h : readU16 l = .ok (v, r)) : readU16 (l ++ s) = .ok (v, r ++ s) := by
  simp only [readU16] at h ⊢
  cases ht : takeN l 2 with
  | error e => rw [ht] at h; simp at h
  | ok p =>
    obtain ⟨c, r'⟩ := p
    rw [ht] at h
    simp only [Except.ok.injEq, Prod.mk.injEq] at h
    obtain ⟨rfl, rfl⟩ := h
    rw [takeN_append l s 2 c r' ht]

/-- A successful `read_u32_le` is unaffected by appending a suffix. -/
theorem readU32_append (l s : List Nat) (v : Nat) (r : List Nat)
    (h : readU32 l = .ok (v, r)) : readU32 (l ++ s) = .ok (v, r ++ s) := by
  simp only [readU32] at h ⊢
  cases ht : takeN l 4 with
  | error e => rw [ht] at h; simp at h
  | ok p =>
    obtain ⟨c, r'⟩ := p
    rw [ht] at h
    simp only [Except.ok.injEq, Prod.mk.injEq] at h
    obtain ⟨rfl, rfl⟩ := h
    rw [takeN_append l s 4 c r' ht]

/-- A successfully decoded column descriptor is unaffected by
appending a suffix: the same column is produced and the suffix lands
after its remaining bytes. -/
theorem decodeOneColumn_append (rc ev : Nat) (ws : MathldbtV1DecodeWorkspace)
    (bytes s : List Nat) (ws' : MathldbtV1DecodeWorkspace)
    (field : ColumnarField) (col : ColumnData) (r : List Nat)
    (h : decodeOneColumn rc ev ws bytes = .ok (ws', field, col, r)) :
    decodeOneColumn rc ev ws (bytes ++ s) = .ok (ws', field, col, r ++ s) := by
  simp only [decodeOneColumn] at h ⊢
  cases h1 : readU16 bytes with
  | error e => rw [h1] at h; simp at h
  | ok p1 =>
    obtain ⟨tid, r1⟩ := p1
    rw [h1] at h
    rw [readU16_append bytes s tid r1 h1]
    dsimp only at h ⊢
    cases h2 : type_from_id tid with
    | error e => rw [h2] at h; simp at h
    | ok ty =>
      rw [h2] at h
      dsimp only at h ⊢
      cases h3 : readU16 r1 with
      | error e => rw [h3] at h; simp at h
      | ok p3 =>
        obtain ⟨encId, r2⟩ := p3
        rw [h3] at h
        rw [readU16_append r1 s encId r2 h3]
        dsimp only at h ⊢
        cases h4 : readU16 r2 with
        | error e => rw [h4] at h; simp at h
        | ok p4 =>
          obtain ⟨cf, r3⟩ := p4
          rw [h4] at h
          rw [readU16_append r2 s cf r3 h4]
          dsimp only at h ⊢
          cases h5 : readU16 r3 with
          | error e => rw [h5] at h; simp at h
          | ok p5 =>
            obtain ⟨nameLen, r4⟩ := p5
            rw [h5] at h
            rw [readU16_append r3 s nameLen r4 h5]
            dsimp only at h ⊢
            cases h6 : takeN r4 nameLen with
            | error e => rw [h6] at h; simp at h
            | ok p6 =>
              obtain ⟨nameBytes, r5⟩ := p6
              rw [h6] at h
              rw [takeN_append r4 s nameLen nameBytes r5 h6]
              dsimp only at h ⊢
              cases h7 : (if nameLen = 0 then .ok none
                  else if utf8Valid nameBytes then .ok (some nameBytes)
                  else .error "invalid UTF-8 column name" :
                  Except String (Option (List Nat))) with
              | error e => rw [h7] at h; simp at h
              | ok name =>
                rw [h7] at h
                dsimp only at h ⊢
                cases h8 : readU32 r5 with
                | error e => rw [h8] at h; simp at h
                | ok p8 =>
                  obtain ⟨validityLen, r6⟩ := p8
                  rw [h8] at h
                  rw [readU32_append r5 s validityLen r6 h8]
                  dsimp only at h ⊢
                  split at h
                  · simp at h
                  · rename_i hvl
                    rw [if_neg hvl]
                    cases h9 : takeN r6 validityLen with
                    | error e => rw [h9] at h; simp at h
                    | ok p9 =>
                      obtain ⟨validityBytes, r7⟩ := p9
                      rw [h9] at h
                      rw [takeN_append r6 s validityLen validityBytes r7 h9]
                      dsimp only at h ⊢
                      cases h10 : readU32 r7 with
                      | error e => rw [h10] at h; simp at h
                      | ok p10 =>
                        obtain ⟨p1len, r8⟩ := p10
                        rw [h10] at h
                        rw [readU32_append r7 s p1len r8 h10]
                        dsimp only at h ⊢
                        cases h11 : takeN r8 p1len with
                        | error e => rw [h11] at h; simp at h
                        | ok p11 =>
                          obtain ⟨pay1, r9⟩ := p11
                          rw [h11] at h
                          rw [takeN_append r8 s p1len pay1 r9 h11]
                          dsimp only at h ⊢
                          cases h12 : readU32 r9 with
                          | error e => rw [h12] at h; simp at h
                          | ok p12 =>
                            obtain ⟨p2len, r10⟩ := p12
                            rw [h12] at h
                            rw [readU32_append r9 s p2len r10 h12]
                            dsimp only at h ⊢
                            cases h13 : takeN r10 p2len with
                            | error e => rw [h13] at h; simp at h
                            | ok p13 =>
                              obtain ⟨pay2, r11⟩ := p13
                              rw [h13] at h
                              rw [takeN_append r10 s p2len pay2 r11 h13]
                              dsimp only at h ⊢
                              cases h14 : decodeColPayload ws rc ty encId
                                  validityBytes pay1 pay2 with
                              | error e => rw [h14] at h; simp at h
                              | ok p14 =>
                                obtain ⟨ws'', col'⟩ := p14
                                rw [h14] at h
                                dsimp only at h ⊢
                                simp only [Except.ok.injEq, Prod.mk.injEq] at h
                                obtain ⟨rfl, rfl, rfl, rfl⟩ := h
                                rfl

/-- The decoder's column loop is unaffected by appending a suffix when
it succeeds. -/
theorem decodeColsLoop_append (rc ev : Nat) (n : Nat) :
    ∀ (bytes s : List Nat) (ws : MathldbtV1DecodeWorkspace)
      (fr : List ColumnarField) (cr : List ColumnData) out,
      decodeColsLoop rc ev n bytes ws fr cr = .ok out →
      decodeColsLoop rc ev n (bytes ++ s) ws fr cr = .ok out := by
  induction n with
  | zero => intro bytes s ws fr cr out h; exact h
  | succ n ih =>
    intro bytes s ws fr cr out h
    simp only [decodeColsLoop] at h ⊢
    cases h1 : decodeOneColumn rc ev ws bytes with
    | error e => rw [h1] at h; simp at h
    | ok p =>
      obtain ⟨ws', field, col, r⟩ := p
      rw [h1] at h
      rw [decodeOneColumn_append rc ev ws bytes s ws' field col r h1]
      dsimp only at h ⊢
      exact ih r s ws' (field :: fr) (col :: cr) out h

/-- C10: the allocating decoder consumes only the bytes declared by the
header and length fields and never checks that the whole input was
consumed: appending any suffix to a frame that decodes successfully
yields the same batch. -/
theorem C10_trailing_bytes_ignored :
    ∀ (f s : List Nat) (b : ColumnarBatch),
      decode_mathldbt_v1 f = .ok b → decode_mathldbt_v1 (f ++ s) = .ok b := by
  intro f s b h
  simp only [decode_mathldbt_v1, decode_mathldbt_v1_with_workspace] at h ⊢
  cases h1 : takeN f 8 with
  | error e => rw [h1] at h; simp at h
  | ok p1 =>
    obtain ⟨magic, r1⟩ := p1
    rw [h1] at h
    rw [takeN_append f s 8 magic r1 h1]
    dsimp only at h ⊢
    split at h
    · simp at h
    · rename_i hmagic
      rw [if_neg hmagic]
      cases h2 : readU16 r1 with
      | error e => rw [h2] at h; simp at h
      | ok p2 =>
        obtain ⟨version, r2⟩ := p2
        rw [h2] at h
        rw [readU16_append r1 s version r2 h2]
        dsimp only at h ⊢
        split at h
        · simp at h
        · rename_i hver
          rw [if_neg hver]
          cases h3 : readU16 r2 with
          | error e => rw [h3] at h; simp at h
          | ok p3 =>
            obtain ⟨flags, r3⟩ := p3
            rw [h3] at h
            rw [readU16_append r2 s flags r3 h3]
            dsimp only at h ⊢
            cases h4 : readU32 r3 with
            | error e => rw [h4] at h; simp at h
            | ok p4 =>
              obtain ⟨rowCount, r4⟩ := p4
              rw [h4] at h
              rw [readU32_append r3 s rowCount r4 h4]
              dsimp only at h ⊢
              cases h5 : readU16 r4 with
              | error e => rw [h5] at h; simp at h
              | ok p5 =>
                obtain ⟨colCount, r5⟩ := p5
                rw [h5] at h
                rw [readU16_append r4 s colCount r5 h5]
                dsimp only at h ⊢
                split at h
                · simp at h
                · rename_i hcol
                  rw [if_neg hcol]
                  cases h6 : readU16 r5 with
                  | error e => rw [h6] at h; simp at h
                  | ok p6 =>
                    obtain ⟨schemaIdLen, r6⟩ := p6
                    rw [h6] at h
                    rw [readU16_append r5 s schemaIdLen r6 h6]
                    dsimp only at h ⊢
                    by_cases hsid : 0 < schemaIdLen
                    · rw [if_pos hsid] at h ⊢
                      cases h7 : takeN r6 schemaIdLen with
                      | error e => rw [h7] at h; simp at h
                      | ok p7 =>
                        obtain ⟨skip, r7⟩ := p7
                        rw [h7] at h
                        rw [takeN_append r6 s schemaIdLen skip r7 h7]
                        dsimp only at h ⊢
                        cases h8 : decodeColsLoop rowCount (ceilDiv8 rowCount)
                            colCount r7 defaultDecodeWs [] [] with
                        | error e => rw [h8] at h; simp at h
                        | ok p8 =>
                          rw [h8] at h
                          rw [decodeColsLoop_append rowCount (ceilDiv8 rowCount)
                            colCount r7 s defaultDecodeWs [] [] p8 h8]
                          exact h
                    · rw [if_neg hsid] at h ⊢
                      dsimp only at h ⊢
                      cases h8 : decodeColsLoop rowCount (ceilDiv8 rowCount)
                          colCount r6 defaultDecodeWs [] [] with
                      | error e => rw [h8] at h; simp at h
                      | ok p8 =>
                        rw [h8] at h
                        rw [decodeColsLoop_append rowCount (ceilDiv8 rowCount)
                          colCount r6 s defaultDecodeWs [] [] p8 h8]
                        exact h

/-- Minimal frame for the C10 witness: one unnamed Bool column with
zero rows. -/
def c10Frame : List Nat :=
  MAGIC ++ [1, 0] ++ [0, 0] ++ [0, 0, 0, 0] ++ [1, 0] ++ [0, 0] ++
  [1, 0] ++ [0, 0] ++ [0, 0] ++ [0, 0] ++ [0, 0, 0, 0] ++ [0, 0, 0, 0] ++
  [0, 0, 0, 0]

/-- Witness for C10: a concrete frame with a stray suffix byte decodes
to the same batch. -/
theorem C10_trailing_bytes_ignored_witness :
    decode_mathldbt_v1 (c10Frame ++ [99]) =
      .ok ⟨⟨[⟨none, .bool⟩]⟩, 0, [.fixedBool [] []]⟩ :=
  C10_trailing_bytes_ignored c10Frame [99]
    ⟨⟨[⟨none, .bool⟩]⟩, 0, [.fixedBool [] []]⟩ (by decide)

/-- A borrowed view column holds the same logical data as an owned
column: same variant, validity, values and offsets, with the view's
variable-length data (inline slice plus chunks) concatenating to the
owned data. -/
def matchesCol : ColumnDataView → ColumnData → Bool
  | .fixedBool v1 x1, .fixedBool v2 x2 => v1 == v2 && x1 == x2
  | .fixedI16 v1 x1, .fixedI16 v2 x2 => v1 == v2 && x1 == x2
  | .fixedI32 v1 x1, .fixedI32 v2 x2 => v1 == v2 && x1 == x2
  | .fixedI64 v1 x1, .fixedI64 v2 x2 => v1 == v2 && x1 == x2
  | .fixedF32Bits v1 x1, .fixedF32Bits v2 x2 => v1 == v2 && x1 == x2
  | .fixedF64Bits v1 x1, .fixedF64Bits v2 x2 => v1 == v2 && x1 == x2
  | .fixedUuid v1 x1, .fixedUuid v2 x2 => v1 == v2 && x1 == x2
  | .fixedTimestampMicros v1 x1, .fixedTimestampMicros v2 x2 =>
      v1 == v2 && x1 == x2
  | .var ty1 v1 o1 d1, .var ty2 v2 o2 d2 =>
      ty1 == ty2 && v1 == v2 && o1 == o2 && d1.flattenData == d2
  | _, _ => false

/-- Pointwise column matching. -/
def matchesCols : List ColumnDataView → List ColumnData → Bool
  | [], [] => true
  | vc :: vcs, bc :: bcs => matchesCol vc bc && matchesCols vcs bcs
  | _, _ => false

/-- The view's summed variable-length size equals the length of its
logical byte content. -/
theorem lenTotal_flatten (d : VarDataView) :
    d.lenTotal = d.flattenData.length := by
  cases d with
  | contiguous b => rfl
  | chunks i cs =>
    simp [VarDataView.lenTotal, VarDataView.flattenData, List.length_flatten]

/-- Matching column lists have equal lengths. -/
theorem matchesCols_length :
    ∀ (vcs : List ColumnDataView) (bcs : List ColumnData),
      matchesCols vcs bcs = true → vcs.length = bcs.length := by
  intro vcs
  induction vcs with
  | nil =>
    intro bcs h
    cases bcs with
    | nil => rfl
    | cons b bs => simp [matchesCols] at h
  | cons v vs ih =>
    intro bcs h
    cases bcs with
    | nil => simp [matchesCols] at h
    | cons b bs =>
      simp only [matchesCols, Bool.and_eq_true] at h
      simp only [List.length_cons, ih bs h.2]

/-- Matching columns validate identically. -/
theorem validate_col_matches (vc : ColumnDataView) (bc : ColumnData)
    (ty : ColumnarType) (rc : Nat) (hm : matchesCol vc bc = true) :
    vc.validate_for_row_count ty rc = bc.validate_for_row_count ty rc := by
  cases vc <;> cases bc <;> simp only [matchesCol, Bool.and_eq_true,
    beq_iff_eq, reduceCtorEq] at hm
  case fixedBool.fixedBool => obtain ⟨rfl, rfl⟩ := hm; rfl
  case fixedI16.fixedI16 => obtain ⟨rfl, rfl⟩ := hm; rfl
  case fixedI32.fixedI32 => obtain ⟨rfl, rfl⟩ := hm; rfl
  case fixedI64.fixedI64 => obtain ⟨rfl, rfl⟩ := hm; rfl
  case fixedF32Bits.fixedF32Bits => obtain ⟨rfl, rfl⟩ := hm; rfl
  case fixedF64Bits.fixedF64Bits => obtain ⟨rfl, rfl⟩ := hm; rfl
  case fixedUuid.fixedUuid => obtain ⟨rfl, rfl⟩ := hm; rfl
  case fixedTimestampMicros.fixedTimestampMicros =>
    obtain ⟨rfl, rfl⟩ := hm; rfl
  case var.var =>
    obtain ⟨⟨⟨rfl, rfl⟩, rfl⟩, hflat⟩ := hm
    subst hflat
    simp only [ColumnDataView.validate_for_row_count,
      ColumnData.validate_for_row_count, ColumnDataView.ty, ColumnData.ty,
      lenTotal_flatten]

/-- Matching column lists validate identically against any field list. -/
theorem validateCols_matches (rc : Nat) :
    ∀ (vcs : List ColumnDataView) (bcs : List ColumnData)
      (fs : List ColumnarField), matchesCols vcs bcs = true →
      validateColsV rc fs vcs = validateCols rc fs bcs := by
  intro vcs
  induction vcs with
  | nil =>
    intro bcs fs h
    cases bcs with
    | nil => cases fs <;> rfl
    | cons b bs => simp [matchesCols] at h
  | cons v vs ih =>
    intro bcs fs h
    cases bcs with
    | nil => simp [matchesCols] at h
    | cons b bs =>
      simp only [matchesCols, Bool.and_eq_true] at h
      cases fs with
      | nil => rfl
      | cons f fs' =>
        simp only [validateColsV, validateCols,
          validate_col_matches v b f.ty rc h.1]
        cases b.validate_for_row_count f.ty rc with
        | error e => rfl
        | ok u => exact ih bs fs' h.2

/-- A view and a batch with the same schema, row count and matching
columns validate identically. -/
theorem view_validate_matches (schema : ColumnarSchema) (rc : Nat)
    (vcols : List ColumnDataView) (bcols : List ColumnData)
    (hm : matchesCols vcols bcols = true) :
    (ColumnarBatchView.mk schema rc vcols).validate =
      (ColumnarBatch.mk schema rc bcols).validate := by
  simp only [ColumnarBatchView.validate, ColumnarBatch.validate,
    matchesCols_length vcols bcols hm]
  split
  · rfl
  · split
    · rfl
    · exact validateCols_matches rc vcols bcols schema.fields hm

/-- Matching columns emit identical payload sections (for the same
selected encoding and payloads): chunked variable-length data is
written as inline plus chunks with the summed length prefix, which
equals the owned column's data write. -/
theorem emitPayload_matches (rc : Nat) (f : ColumnarField)
    (vc : ColumnDataView) (bc : ColumnData) (encId : Nat)
    (dictP : Option (List Nat × List Nat)) (deltaP : Option (List Nat))
    (hm : matchesCol vc bc = true) :
    emitPayloadV rc f vc encId dictP deltaP =
      emitPayload rc f bc encId dictP deltaP := by
  cases vc <;> cases bc <;> simp only [matchesCol, Bool.and_eq_true,
    beq_iff_eq, reduceCtorEq] at hm
  case fixedBool.fixedBool => obtain ⟨rfl, rfl⟩ := hm; rfl
  case fixedI16.fixedI16 => obtain ⟨rfl, rfl⟩ := hm; rfl
  case fixedI32.fixedI32 => obtain ⟨rfl, rfl⟩ := hm; rfl
  case fixedI64.fixedI64 => obtain ⟨rfl, rfl⟩ := hm; rfl
  case fixedF32Bits.fixedF32Bits => obtain ⟨rfl, rfl⟩ := hm; rfl
  case fixedF64Bits.fixedF64Bits => obtain ⟨rfl, rfl⟩ := hm; rfl
  case fixedUuid.fixedUuid => obtain ⟨rfl, rfl⟩ := hm; rfl
  case fixedTimestampMicros.fixedTimestampMicros =>
    obtain ⟨rfl, rfl⟩ := hm; rfl
  case var.var =>
    obtain ⟨⟨⟨rfl, rfl⟩, rfl⟩, hflat⟩ := hm
    subst hflat
    rename_i ty validity offsets d1
    cases d1 with
    | contiguous bytes => rfl
    | chunks inline cs =>
      simp only [emitPayloadV, emitPayload, VarDataView.flattenData]
      split
      · split
        · rfl
        · split
          · rfl
          · split
            · rfl
            · by_cases hlen :
                U32MOD ≤ (inline ++ cs.flatten).length
              · have hlen' :
                    U32MOD ≤ inline.length + (List.map List.length cs).sum := by
                  simpa using hlen
                rw [if_pos (by rw [lenTotal_flatten]; exact hlen)]
                simp [writeU32LenBytes, hlen']
              · have hlen' :
                    ¬ U32MOD ≤ inline.length + (List.map List.length cs).sum := by
                  simpa using hlen
                rw [if_neg (by rw [lenTotal_flatten]; exact hlen)]
                simp [writeU32LenBytes, hlen', VarDataView.lenTotal,
                  List.append_assoc]
      · rfl

/-- Fast-path column step preserves the feature flags. -/
theorem encodeColumnV_flags (ws : MathldbtV1EncodeWorkspace) (rc : Nat)
    (f : ColumnarField) (c : ColumnDataView) :
    (encodeColumnV ws rc f c).2.2.enable_dict_utf8 = ws.enable_dict_utf8 ∧
    (encodeColumnV ws rc f c).2.2.enable_delta_varint_i64 =
      ws.enable_delta_varint_i64 := by
  cases c with
  | fixedI64 validity values =>
    simp only [encodeColumnV, ColumnDataView.validityBytes]
    split
    · exact ⟨rfl, rfl⟩
    · have hf := select_delta_flags ws (f.ty == ColumnarType.i64) validity rc values
      rcases h1 : select_delta_i64 ws (f.ty == ColumnarType.i64) validity rc
        values with ⟨ws', s⟩
      rw [h1] at hf
      rcases s with ⟨encId, dp⟩
      dsimp only
      repeat' split
      all_goals exact hf
  | fixedTimestampMicros validity values =>
    simp only [encodeColumnV, ColumnDataView.validityBytes]
    split
    · exact ⟨rfl, rfl⟩
    · have hf := select_delta_flags ws (f.ty == ColumnarType.timestampTzMicros)
        validity rc values
      rcases h1 : select_delta_i64 ws (f.ty == ColumnarType.timestampTzMicros)
        validity rc values with ⟨ws', s⟩
      rw [h1] at hf
      rcases s with ⟨encId, dp⟩
      dsimp only
      repeat' split
      all_goals exact hf
  | var ty validity offsets data =>
    simp only [encodeColumnV, ColumnDataView.validityBytes]
    split
    · exact ⟨rfl, rfl⟩
    · by_cases hflag : (ws.enable_dict_utf8 &&
          (ty == ColumnarType.utf8 || ty == ColumnarType.jsonbText)) = true
      · simp only [hflag, if_true]
        cases data with
        | contiguous bytes =>
          dsimp only
          cases h1 : build_dict_utf8_payload ws validity rc offsets bytes with
          | error e =>
            dsimp only
            exact ⟨rfl, rfl⟩
          | ok p =>
            obtain ⟨ws', o⟩ := p
            have hf := build_dict_flags ws ws' validity rc offsets bytes o h1
            cases o with
            | none =>
              dsimp only
              repeat' split
              all_goals exact hf
            | some q =>
              dsimp only
              repeat' split
              all_goals exact hf
        | chunks inline cs =>
          dsimp only
          cases h1 : build_dict_utf8_payload ws validity rc offsets
              (inline ++ cs.flatten) with
          | error e =>
            dsimp only
            exact ⟨rfl, rfl⟩
          | ok p =>
            obtain ⟨ws', o⟩ := p
            have hf := build_dict_flags ws ws' validity rc offsets
              (inline ++ cs.flatten) o h1
            cases o with
            | none =>
              dsimp only
              repeat' split
              all_goals exact hf
            | some q =>
              dsimp only
              repeat' split
              all_goals exact hf
      · simp only [Bool.not_eq_true] at hflag
        simp only [hflag, Bool.false_eq_true, if_false]
        repeat' split
        all_goals exact ⟨rfl, rfl⟩
  | fixedBool validity values =>
    simp only [encodeColumnV, ColumnDataView.validityBytes]
    repeat' split
    all_goals exact ⟨rfl, rfl⟩
  | fixedI16 validity values =>
    simp only [encodeColumnV, ColumnDataView.validityBytes]
    repeat' split
    all_goals exact ⟨rfl, rfl⟩
  | fixedI32 validity values =>
    simp only [encodeColumnV, ColumnDataView.validityBytes]
    repeat' split
    all_goals exact ⟨rfl, rfl⟩
  | fixedF32Bits validity values =>
    simp only [encodeColumnV, ColumnDataView.validityBytes]
    repeat' split
    all_goals exact ⟨rfl, rfl⟩
  | fixedF64Bits validity values =>
    simp only [encodeColumnV, ColumnDataView.validityBytes]
    repeat' split
    all_goals exact ⟨rfl, rfl⟩
  | fixedUuid validity values =>
    simp only [encodeColumnV, ColumnDataView.validityBytes]
    repeat' split
    all_goals exact ⟨rfl, rfl⟩

/-- A fast-path column step and an owned column step on matching
columns produce the same error and bytes, for any two workspaces that
agree on the feature flags. -/
theorem encodeColumnVB_out (ws1 ws2 : MathldbtV1EncodeWorkspace) (rc : Nat)
    (f : ColumnarField) (vc : ColumnDataView) (bc : ColumnData)
    (hd : ws1.enable_dict_utf8 = ws2.enable_dict_utf8)
    (he : ws1.enable_delta_varint_i64 = ws2.enable_delta_varint_i64)
    (hm : matchesCol vc bc = true) :
    encOut (encodeColumnV ws1 rc f vc) = encOut (encodeColumnB ws2 rc f bc) := by
  cases vc <;> cases bc <;> simp only [matchesCol, Bool.and_eq_true,
    beq_iff_eq, reduceCtorEq] at hm
  case fixedBool.fixedBool =>
    obtain ⟨rfl, rfl⟩ := hm
    rename_i validity values
    simp only [encodeColumnV, encodeColumnB, ColumnDataView.validityBytes,
      ColumnData.validityBytes]
    rw [emitPayload_matches rc f (.fixedBool validity values)
      (.fixedBool validity values) ENC_PLAIN none none (by simp [matchesCol])]
    repeat' split
    all_goals rfl
  case fixedI16.fixedI16 =>
    obtain ⟨rfl, rfl⟩ := hm
    rename_i validity values
    simp only [encodeColumnV, encodeColumnB, ColumnDataView.validityBytes,
      ColumnData.validityBytes]
    rw [emitPayload_matches rc f (.fixedI16 validity values)
      (.fixedI16 validity values) ENC_PLAIN none none (by simp [matchesCol])]
    repeat' split
    all_goals rfl
  case fixedI32.fixedI32 =>
    obtain ⟨rfl, rfl⟩ := hm
    rename_i validity values
    simp only [encodeColumnV, encodeColumnB, ColumnDataView.validityBytes,
      ColumnData.validityBytes]
    rw [emitPayload_matches rc f (.fixedI32 validity values)
      (.fixedI32 validity values) ENC_PLAIN none none (by simp [matchesCol])]
    repeat' split
    all_goals rfl
  case fixedF32Bits.fixedF32Bits =>
    obtain ⟨rfl, rfl⟩ := hm
    rename_i validity values
    simp only [encodeColumnV, encodeColumnB, ColumnDataView.validityBytes,
      ColumnData.validityBytes]
    rw [emitPayload_matches rc f (.fixedF32Bits validity values)
      (.fixedF32Bits validity values) ENC_PLAIN none none (by simp [matchesCol])]
    repeat' split
    all_goals rfl
  case fixedF64Bits.fixedF64Bits =>
    obtain ⟨rfl, rfl⟩ := hm
    rename_i validity values
    simp only [encodeColumnV, encodeColumnB, ColumnDataView.validityBytes,
      ColumnData.validityBytes]
    rw [emitPayload_matches rc f (.fixedF64Bits validity values)
      (.fixedF64Bits validity values) ENC_PLAIN none none (by simp [matchesCol])]
    repeat' split
    all_goals rfl
  case fixedUuid.fixedUuid =>
    obtain ⟨rfl, rfl⟩ := hm
    rename_i validity values
    simp only [encodeColumnV, encodeColumnB, ColumnDataView.validityBytes,
      ColumnData.validityBytes]
    rw [emitPayload_matches rc f (.fixedUuid validity values)
      (.fixedUuid validity values) ENC_PLAIN none none (by simp [matchesCol])]
    repeat' split
    all_goals rfl
  case fixedI64.fixedI64 =>
    obtain ⟨rfl, rfl⟩ := hm
    rename_i validity values
    have hemit : ∀ (encId : Nat) (dictP : Option (List Nat × List Nat))
        (deltaP : Option (List Nat)),
        emitPayloadV rc f (.fixedI64 validity values) encId dictP deltaP =
          emitPayload rc f (.fixedI64 validity values) encId dictP deltaP :=
      fun encId dictP deltaP =>
        emitPayload_matches rc f _ _ encId dictP deltaP (by simp [matchesCol])
    simp only [encodeColumnV, encodeColumnB, ColumnDataView.validityBytes,
      ColumnData.validityBytes]
    split
    · rfl
    · have hsnd := select_delta_snd ws1 ws2 (f.ty == ColumnarType.i64)
        validity rc values he
      rcases h1 : select_delta_i64 ws1 (f.ty == ColumnarType.i64) validity rc
        values with ⟨ws1', s1⟩
      rcases h2 : select_delta_i64 ws2 (f.ty == ColumnarType.i64) validity rc
        values with ⟨ws2', s2⟩
      rw [h1, h2] at hsnd
      obtain rfl : s1 = s2 := hsnd
      rcases s1 with ⟨encId, dp⟩
      dsimp only
      rw [hemit encId none dp]
      repeat' split
      all_goals rfl
  case fixedTimestampMicros.fixedTimestampMicros =>
    obtain ⟨rfl, rfl⟩ := hm
    rename_i validity values
    have hemit : ∀ (encId : Nat) (dictP : Option (List Nat × List Nat))
        (deltaP : Option (List Nat)),
        emitPayloadV rc f (.fixedTimestampMicros validity values) encId dictP
            deltaP =
          emitPayload rc f (.fixedTimestampMicros validity values) encId dictP
            deltaP :=
      fun encId dictP deltaP =>
        emitPayload_matches rc f _ _ encId dictP deltaP (by simp [matchesCol])
    simp only [encodeColumnV, encodeColumnB, ColumnDataView.validityBytes,
      ColumnData.validityBytes]
    split
    · rfl
    · have hsnd := select_delta_snd ws1 ws2
        (f.ty == ColumnarType.timestampTzMicros) validity rc values he
      rcases h1 : select_delta_i64 ws1 (f.ty == ColumnarType.timestampTzMicros)
        validity rc values with ⟨ws1', s1⟩
      rcases h2 : select_delta_i64 ws2 (f.ty == ColumnarType.timestampTzMicros)
        validity rc values with ⟨ws2', s2⟩
      rw [h1, h2] at hsnd
      obtain rfl : s1 = s2 := hsnd
      rcases s1 with ⟨encId, dp⟩
      dsimp only
      rw [hemit encId none dp]
      repeat' split
      all_goals rfl
  case var.var =>
    obtain ⟨⟨⟨rfl, rfl⟩, rfl⟩, hflat⟩ := hm
    subst hflat
    rename_i ty validity offsets d1
    simp only [encodeColumnV, encodeColumnB, ColumnDataView.validityBytes,
      ColumnData.validityBytes]
    split
    · rfl
    · rw [hd]
      by_cases hflag : (ws2.enable_dict_utf8 &&
          (ty == ColumnarType.utf8 || ty == ColumnarType.jsonbText)) = true
      · simp only [hflag, if_true, select_dict_var]
        cases d1 with
        | contiguous bytes =>
          dsimp only
          simp only [VarDataView.flattenData]
          have hemit : ∀ (encId : Nat) (dictP : Option (List Nat × List Nat))
              (deltaP : Option (List Nat)),
              emitPayloadV rc f
                  (.var ty validity offsets (.contiguous bytes)) encId dictP
                  deltaP =
                emitPayload rc f (.var ty validity offsets bytes) encId dictP
                  deltaP :=
            fun encId dictP deltaP =>
              emitPayload_matches rc f _ _ encId dictP deltaP
                (by simp [matchesCol, VarDataView.flattenData])
          have hsnd := build_dict_exSnd ws1 ws2 validity rc offsets bytes
          cases h1 : build_dict_utf8_payload ws1 validity rc offsets bytes with
          | error e1 =>
            cases h2 : build_dict_utf8_payload ws2 validity rc offsets
                bytes with
            | error e2 =>
              rw [h1, h2] at hsnd
              simp only [exSnd, Except.error.injEq] at hsnd
              subst hsnd
              rfl
            | ok p2 =>
              rw [h1, h2] at hsnd
              obtain ⟨ws2', o2⟩ := p2
              simp [exSnd] at hsnd
          | ok p1 =>
            obtain ⟨ws1', o1⟩ := p1
            cases h2 : build_dict_utf8_payload ws2 validity rc offsets
                bytes with
            | error e2 =>
              rw [h1, h2] at hsnd
              simp [exSnd] at hsnd
            | ok p2 =>
              obtain ⟨ws2', o2⟩ := p2
              rw [h1, h2] at hsnd
              simp only [exSnd, Except.ok.injEq] at hsnd
              obtain rfl : o1 = o2 := hsnd
              cases o1 with
              | none =>
                dsimp only
                rw [hemit ENC_PLAIN none none]
                repeat' split
                all_goals rfl
              | some p =>
                dsimp only
                rw [hemit ENC_DICT_UTF8 (some p) none]
                repeat' split
                all_goals rfl
        | chunks inline cs =>
          dsimp only
          simp only [VarDataView.flattenData]
          have hemit : ∀ (encId : Nat) (dictP : Option (List Nat × List Nat))
              (deltaP : Option (List Nat)),
              emitPayloadV rc f
                  (.var ty validity offsets (.chunks inline cs)) encId dictP
                  deltaP =
                emitPayload rc f
                  (.var ty validity offsets (inline ++ cs.flatten)) encId dictP
                  deltaP :=
            fun encId dictP deltaP =>
              emitPayload_matches rc f _ _ encId dictP deltaP
                (by simp [matchesCol, VarDataView.flattenData])
          have hsnd := build_dict_exSnd ws1 ws2 validity rc offsets
            (inline ++ cs.flatten)
          cases h1 : build_dict_utf8_payload ws1 validity rc offsets
              (inline ++ cs.flatten) with
          | error e1 =>
            cases h2 : build_dict_utf8_payload ws2 validity rc offsets
                (inline ++ cs.flatten) with
            | error e2 =>
              rw [h1, h2] at hsnd
              simp only [exSnd, Except.error.injEq] at hsnd
              subst hsnd
              rfl
            | ok p2 =>
              rw [h1, h2] at hsnd
              obtain ⟨ws2', o2⟩ := p2
              simp [exSnd] at hsnd
          | ok p1 =>
            obtain ⟨ws1', o1⟩ := p1
            cases h2 : build_dict_utf8_payload ws2 validity rc offsets
                (inline ++ cs.flatten) with
            | error e2 =>
              rw [h1, h2] at hsnd
              simp [exSnd] at hsnd
            | ok p2 =>
              obtain ⟨ws2', o2⟩ := p2
              rw [h1, h2] at hsnd
              simp only [exSnd, Except.ok.injEq] at hsnd
              obtain rfl : o1 = o2 := hsnd
              cases o1 with
              | none =>
                dsimp only
                rw [hemit ENC_PLAIN none none]
                repeat' split
                all_goals rfl
              | some p =>
                dsimp only
                rw [hemit ENC_DICT_UTF8 (some p) none]
                repeat' split
                all_goals rfl
      · have hemit : ∀ (encId : Nat) (dictP : Option (List Nat × List Nat))
            (deltaP : Option (List Nat)),
            emitPayloadV rc f (.var ty validity offsets d1) encId dictP
                deltaP =
              emitPayload rc f (.var ty validity offsets d1.flattenData) encId
                dictP deltaP :=
          fun encId dictP deltaP =>
            emitPayload_matches rc f _ _ encId dictP deltaP
              (by simp [matchesCol])
        simp only [Bool.not_eq_true] at hflag
        simp only [hflag, Bool.false_eq_true, if_false, select_dict_var]
        rw [hemit ENC_PLAIN none none]
        repeat' split
        all_goals rfl

/-- The fast-path per-column loop and the owned per-column loop on
matching column lists produce the same error and bytes. -/
theorem encColsVB_out (rc : Nat) :
    ∀ (fields : List ColumnarField) (vcols : List ColumnDataView)
      (bcols : List ColumnData) (acc : List Nat)
      (ws1 ws2 : MathldbtV1EncodeWorkspace),
      ws1.enable_dict_utf8 = ws2.enable_dict_utf8 →
      ws1.enable_delta_varint_i64 = ws2.enable_delta_varint_i64 →
      matchesCols vcols bcols = true →
      encOut (encColsV rc (fields.zip vcols) acc ws1) =
        encOut (encColsB rc (fields.zip bcols) acc ws2) := by
  intro fields
  induction fields with
  | nil => intro vcols bcols acc ws1 ws2 _ _ _; rfl
  | cons f fs ih =>
    intro vcols bcols acc ws1 ws2 hd he hm
    cases vcols with
    | nil =>
      cases bcols with
      | nil => rfl
      | cons b bs => simp [matchesCols] at hm
    | cons vc vcs =>
      cases bcols with
      | nil => simp [matchesCols] at hm
      | cons bc bcs =>
        simp only [matchesCols, Bool.and_eq_true] at hm
        have hout := encodeColumnVB_out ws1 ws2 rc f vc bc hd he hm.1
        have hf1 := encodeColumnV_flags ws1 rc f vc
        have hf2 := encodeColumnB_flags ws2 rc f bc
        simp only [List.zip_cons_cons, encColsV, encColsB]
        rcases h1 : encodeColumnV ws1 rc f vc with ⟨e1, b1, ws1'⟩
        rcases h2 : encodeColumnB ws2 rc f bc with ⟨e2, b2, ws2'⟩
        rw [h1] at hout hf1
        rw [h2] at hout hf2
        simp only [encOut, Prod.mk.injEq] at hout
        obtain ⟨rfl, rfl⟩ := hout
        dsimp only at hf1 hf2
        cases e1 with
        | some e => rfl
        | none =>
          exact ih vcs bcs (acc ++ b1) ws1' ws2' (by rw [hf1.1, hf2.1, hd])
            (by rw [hf1.2, hf2.2, he]) hm.2

/-- The fast-path encoder core and the owned encoder core on matching
data produce the same error and bytes. -/
theorem encodeCoreVB_out (schema : ColumnarSchema) (rc : Nat)
    (vcols : List ColumnDataView) (bcols : List ColumnData)
    (ws1 ws2 : MathldbtV1EncodeWorkspace)
    (hd : ws1.enable_dict_utf8 = ws2.enable_dict_utf8)
    (he : ws1.enable_delta_varint_i64 = ws2.enable_delta_varint_i64)
    (hm : matchesCols vcols bcols = true) :
    encOut (encodeCoreV ⟨schema, rc, vcols⟩ ws1) =
      encOut (encodeCoreB ⟨schema, rc, bcols⟩ ws2) := by
  have hlen := matchesCols_length vcols bcols hm
  simp only [encodeCoreV, encodeCoreB]
  rw [hlen]
  repeat' split
  all_goals first
    | rfl
    | exact encColsVB_out rc schema.fields vcols bcols _ ws1 ws2 hd he hm

/-- C3: refinement equivalence of the fast-path encoder.  For a
borrowed view and an owned batch holding the same logical data (same
schema, row count, matching columns, with the view\x27s variable-length
data possibly split into an inline slice plus chunks), the fast-path
encoder returns the same error result and byte-identical output as the
owned-batch encoder, for any two workspaces agreeing on the feature
flags (in particular both flags off, or both flags on). -/
theorem C3_fast_path_equivalence :
    ∀ (schema : ColumnarSchema) (rc : Nat)
      (vcols : List ColumnDataView) (bcols : List ColumnData)
      (out : List Nat) (ws1 ws2 : MathldbtV1EncodeWorkspace),
      ws1.enable_dict_utf8 = ws2.enable_dict_utf8 →
      ws1.enable_delta_varint_i64 = ws2.enable_delta_varint_i64 →
      matchesCols vcols bcols = true →
      (encode_mathldbt_v1_fast_path_into_with_workspace
          ⟨schema, rc, vcols⟩ out ws1).1 =
        (encode_mathldbt_v1_into_with_workspace ⟨schema, rc, bcols⟩ out ws2).1 ∧
      (encode_mathldbt_v1_fast_path_into_with_workspace
          ⟨schema, rc, vcols⟩ out ws1).2.1 =
        (encode_mathldbt_v1_into_with_workspace
          ⟨schema, rc, bcols⟩ out ws2).2.1 := by
  intro schema rc vcols bcols out ws1 ws2 hd he hm
  simp only [encode_mathldbt_v1_fast_path_into_with_workspace,
    encode_mathldbt_v1_into_with_workspace]
  rw [view_validate_matches schema rc vcols bcols hm]
  cases hv : (ColumnarBatch.mk schema rc bcols).validate with
  | error e => exact ⟨rfl, rfl⟩
  | ok u =>
    cases u
    dsimp only
    have hout := encodeCoreVB_out schema rc vcols bcols ws1 ws2 hd he hm
    constructor
    · have := congrArg Prod.fst hout
      simpa [encOut] using this
    · have := congrArg Prod.snd hout
      simpa [encOut] using this

/-- Concrete matching view and batch for the C3 witness: a chunked
utf8 column plus an i64 column, with both feature flags enabled. -/
def c3Schema : ColumnarSchema :=
  ⟨[⟨some [112], .utf8⟩, ⟨none, .i64⟩]⟩

def c3Vcols : List ColumnDataView :=
  [.var .utf8 [3] [0, 1, 2] (.chunks [97] [[98]]), .fixedI64 [3] [5, 6]]

def c3Bcols : List ColumnData :=
  [.var .utf8 [3] [0, 1, 2] [97, 98], .fixedI64 [3] [5, 6]]

def c3Ws : MathldbtV1EncodeWorkspace :=
  { defaultEncodeWs with
    enable_dict_utf8 := true
    enable_delta_varint_i64 := true }

theorem C3_fast_path_equivalence_witness :
    matchesCols c3Vcols c3Bcols = true ∧
    ((encode_mathldbt_v1_fast_path_into_with_workspace
        ⟨c3Schema, 2, c3Vcols⟩ [] c3Ws).1 =
      (encode_mathldbt_v1_into_with_workspace ⟨c3Schema, 2, c3Bcols⟩ []
        c3Ws).1 ∧
     (encode_mathldbt_v1_fast_path_into_with_workspace
        ⟨c3Schema, 2, c3Vcols⟩ [] c3Ws).2.1 =
      (encode_mathldbt_v1_into_with_workspace ⟨c3Schema, 2, c3Bcols⟩ []
        c3Ws).2.1) :=
  ⟨by decide,
   C3_fast_path_equivalence c3Schema 2 c3Vcols c3Bcols [] c3Ws c3Ws rfl rfl
     (by decide)⟩

end Mathldbt
